import Mathlib

/-!
Verification of the `ai-pr-review` service: a shallow embedding of its
review-policy glob filtering, configuration merging, model providers,
model manager and webhook dispatcher, with theorems settling the spec
claims about them.
-/

namespace AiPrReview

/-! ### Glob matching (ReviewPolicyManager.shouldIncludeFile)

`matchesPattern` in the source compiles a glob pattern to a regex by a
chain of four global string replacements, applied in order:
dot to escaped dot, `**` to `.*`, `*` to `[^/]*`, `?` to `.`.
Because the third replacement rewrites every `*` still present —
including the one just inserted by the second — the final regex source
consists only of these atoms: a literal character, `.` (any one
character), and `[^/]*` (a run of non-separator characters). -/

/-- An atom of the compiled regex. `anyStar` (`.*`) can only be produced
by the spec-side translation, never by the code's replace chain. -/
inductive RegexAtom where
  | lit (c : Char)
  | anyChar
  | nonSlashStar
  | anyStar
  deriving DecidableEq, Repr

/-- The code's replace chain, fused into one pass over the pattern:
`**` becomes `.` followed by `[^/]*` (the `*` of the inserted `.*` is
itself rewritten by the later `*` pass), a lone `*` becomes `[^/]*`,
`?` becomes `.`, and every other character — the escaped dot included —
is a literal. -/
def globTranslate : List Char → List RegexAtom
  | [] => []
  | c :: rest =>
      if c = '*' then
        match rest with
        | c2 :: rest2 =>
            if c2 = '*' then .anyChar :: .nonSlashStar :: globTranslate rest2
            else .nonSlashStar :: globTranslate (c2 :: rest2)
        | [] => [.nonSlashStar]
      else if c = '?' then .anyChar :: globTranslate rest
      else .lit c :: globTranslate rest

/-- Modelled from the spec: the wildcard semantics the spec describes,
where `**` matches across path separators (any characters), `*` within
a segment, `?` one character, and a dot is literal. -/
def specGlobTranslate : List Char → List RegexAtom
  | [] => []
  | c :: rest =>
      if c = '*' then
        match rest with
        | c2 :: rest2 =>
            if c2 = '*' then .anyStar :: specGlobTranslate rest2
            else .nonSlashStar :: specGlobTranslate (c2 :: rest2)
        | [] => [.nonSlashStar]
      else if c = '?' then .anyChar :: specGlobTranslate rest
      else .lit c :: specGlobTranslate rest

/-- Whether a pattern contains two adjacent stars (a `**` wildcard). -/
def hasDoubleStar : List Char → Bool
  | [] => false
  | _ :: [] => false
  | c :: c2 :: rest => (c == '*' && c2 == '*') || hasDoubleStar (c2 :: rest)

/-- The suffixes of `s` reachable by consuming a run of non-separator
characters (the strings `[^/]*` can absorb in front of them). -/
def nonSlashSuffixes : List Char → List (List Char)
  | [] => [[]]
  | c :: s => (c :: s) :: (if c = '/' then [] else nonSlashSuffixes s)

/-- Every suffix of `s` (the strings `.*` can absorb in front of them). -/
def allSuffixes : List Char → List (List Char)
  | [] => [[]]
  | c :: s => (c :: s) :: allSuffixes s

/-- Anchored matching of an atom list against a character list: the
language of the compiled regex, mirroring
`new RegExp('^' + regexPattern + '$').test(file)`. A star atom matches
iff some admissible suffix lets the rest of the atoms match. -/
def matchAtoms : List RegexAtom → List Char → Bool
  | [], s => s.isEmpty
  | .lit c :: as, s =>
      match s with
      | [] => false
      | c' :: s' => c == c' && matchAtoms as s'
  | .anyChar :: as, s =>
      match s with
      | [] => false
      | _ :: s' => matchAtoms as s'
  | .nonSlashStar :: as, s => (nonSlashSuffixes s).any fun s' => matchAtoms as s'
  | .anyStar :: as, s => (allSuffixes s).any fun s' => matchAtoms as s'

/-- `matchesPattern(file, pattern)` from the source. -/
def matchesPattern (file pattern : String) : Bool :=
  matchAtoms (globTranslate pattern.toList) file.toList

/-- Modelled from the spec: pattern matching under the spec's stated
wildcard semantics. -/
def specMatchesPattern (file pattern : String) : Bool :=
  matchAtoms (specGlobTranslate pattern.toList) file.toList

/-! ### Review configuration data model (ReviewPolicyManager's interfaces) -/

structure GeneralConfig where
  enabled : Bool
  min_size : Nat
  max_size : Nat
  style : String
  deriving Repr, DecidableEq

structure FocusConfig where
  code_quality : Bool
  security : Bool
  performance : Bool
  documentation : Bool
  testing : Bool
  architecture : Bool
  deriving Repr, DecidableEq

structure SeverityConfig where
  critical : Bool
  high : Bool
  medium : Bool
  low : Bool
  info : Bool
  deriving Repr, DecidableEq

/-- The `files` section of a review configuration; `include` is a Lean
keyword, hence the trailing prime. -/
structure FilesConfig where
  include' : List String
  exclude : List String
  deriving Repr, DecidableEq

structure CustomRule where
  name : String
  pattern : String
  description : String
  severity : String
  deriving Repr, DecidableEq

/-- The `ai` section. Numeric fields are exact rationals: the claims are
about which value is chosen, never about rounding. -/
structure AiSection where
  provider : Option String
  temperature : Option ℚ
  max_tokens : Option Nat
  custom_instructions : Option String
  model_id : Option String
  enable_fallback : Option Bool
  fallback_provider : Option String
  deriving Repr, DecidableEq

structure ReviewConfig where
  general : GeneralConfig
  focus : FocusConfig
  severity : SeverityConfig
  files : FilesConfig
  custom_rules : List CustomRule
  ai : AiSection
  deriving Repr, DecidableEq

/-- `ReviewPolicyManager.defaultConfig`, field for field. -/
def defaultConfig : ReviewConfig where
  general := { enabled := true, min_size := 10, max_size := 1000, style := "consolidated" }
  focus := { code_quality := true, security := true, performance := true,
             documentation := true, testing := true, architecture := true }
  severity := { critical := true, high := true, medium := true, low := true, info := true }
  files := { include' := ["**/*"], exclude := [] }
  custom_rules := []
  ai := { provider := none, temperature := some (3 / 10), max_tokens := some 1000,
          custom_instructions := some "", model_id := none,
          enable_fallback := none, fallback_provider := none }

/-- `shouldIncludeFile` from the source: no exclude pattern matches and
some include pattern matches. -/
def shouldIncludeFile (filePath : String) (config : ReviewConfig) : Bool :=
  !(config.files.exclude.any fun pattern => matchesPattern filePath pattern) &&
  (config.files.include'.any fun pattern => matchesPattern filePath pattern)

/-- The default configuration with its `files` section replaced: lets a
claim speak about a configuration that customizes only the glob sets. -/
def cfgWithFiles (files : FilesConfig) : ReviewConfig :=
  { defaultConfig with files := files }

/-! ### Prompt generation (ReviewPolicyManager.generateCustomizedPrompt) -/

/-- A changed file as the prompt builder sees it. -/
structure PRFile where
  filename : String
  isBinary : Bool
  patch : Option String
  deriving Repr, DecidableEq

structure PRData where
  title : Option String
  body : Option String
  files : List PRFile
  number : Option Nat
  deriving Repr, DecidableEq

/-- JavaScript `a || b` for an optional string: `undefined` and the
empty string are falsy. -/
def jsOrStr (a : Option String) (b : String) : String :=
  match a with
  | some s => if s = "" then b else s
  | none => b

/-- The enabled focus areas, in `Object.entries` order, each with its
first underscore replaced by a space. -/
def focusAreas (f : FocusConfig) : List String :=
  (if f.code_quality then ["code quality"] else []) ++
  (if f.security then ["security"] else []) ++
  (if f.performance then ["performance"] else []) ++
  (if f.documentation then ["documentation"] else []) ++
  (if f.testing then ["testing"] else []) ++
  (if f.architecture then ["architecture"] else [])

/-- The enabled severity levels in order, `info` rendered as
`informational`. -/
def severityLevels (s : SeverityConfig) : List String :=
  (if s.critical then ["critical"] else []) ++
  (if s.high then ["high"] else []) ++
  (if s.medium then ["medium"] else []) ++
  (if s.low then ["low"] else []) ++
  (if s.info then ["informational"] else [])

/-- The contribution of one changed file to the prompt: the body of the
`files.forEach` loop in `generateCustomizedPrompt`. An early `return`
contributes nothing; a binary or over-10000-character patch is replaced
by a placeholder line; otherwise the patch (or a fallback text) is
quoted in a fenced block. -/
def fileSection (config : ReviewConfig) (file : PRFile) : String :=
  if !shouldIncludeFile file.filename config then ""
  else if file.isBinary ||
      (match file.patch with
       | some p => decide (p.length > 10000)
       | none => false) then
    file.filename ++ ": [Binary file or too large to include]\n"
  else
    file.filename ++ ":\n```\n" ++ jsOrStr file.patch "No diff available" ++ "\n```\n\n"

/-- The custom-rules paragraph appended when `custom_rules` is nonempty. -/
def customRulesSection (rules : List CustomRule) : String :=
  if rules.length > 0 then
    "\nPlease also check for the following custom rules:\n" ++
    String.join (rules.map fun rule =>
      "- " ++ rule.name ++ ": " ++ rule.description ++ " (" ++ rule.severity ++ " severity)\n") ++
    "\n"
  else ""

/-- `generateCustomizedPrompt` from the source, as the concatenation of
its header, the per-file sections, the custom-rules paragraph and the
closing instructions. -/
def generateCustomizedPrompt (prData : PRData) (config : ReviewConfig) : String :=
  let fa := String.intercalate ", " (focusAreas config.focus)
  let sl := String.intercalate ", " (severityLevels config.severity)
  (match config.ai.custom_instructions with
   | some s => if s = "" then "" else s ++ "\n\n"
   | none => "") ++
  "Please review the following code changes in a pull request. " ++
  "Focus on " ++ fa ++ ". " ++
  "Include " ++ sl ++ " severity issues. " ++
  "Provide feedback as a markdown report with sections for summary and detailed comments.\n\n" ++
  "PR Title: " ++ jsOrStr prData.title "No title provided" ++ "\n" ++
  "PR Description: " ++ jsOrStr prData.body "No description provided" ++ "\n\n" ++
  "Files changed:\n" ++
  String.join (prData.files.map (fileSection config)) ++
  customRulesSection config.custom_rules ++
  "\nPlease organize your review with these sections:\n" ++
  "1. Summary - A brief overview of the changes and their purpose\n" ++
  "2. Key Findings - Major issues or concerns, categorized by type (" ++ fa ++ ")\n" ++
  "3. Recommendations - Specific suggestions for improvement\n\n" ++
  "Your review should be constructive, specific, and actionable."

/-! ### Untyped configuration documents and their deep merge
(ReviewPolicyManager.validateAndMergeConfig) -/

/-- A JavaScript value as `js-yaml` produces it and `mergeObjects`
consumes it: `vnull` is `null`, an object is its fields in insertion
order. -/
inductive JValue where
  | vnull
  | vbool (b : Bool)
  | vnum (q : ℚ)
  | vstr (s : String)
  | arr (elems : List JValue)
  | obj (fields : List (String × JValue))

/-- `typeof v === 'object' && v !== null && !Array.isArray(v)`. -/
def JValue.isObj : JValue → Bool
  | .obj _ => true
  | _ => false

/-- Property read `fields[k]` on an object's field list. -/
def getKey : List (String × JValue) → String → Option JValue
  | [], _ => none
  | (k', v') :: rest, k => if k' = k then some v' else getKey rest k

/-- Property assignment `target[k] = v`: replaces an existing binding in
place, keeping its position, and appends a fresh key at the end. -/
def setKey : List (String × JValue) → String → JValue → List (String × JValue)
  | [], k, v => [(k, v)]
  | (k', v') :: rest, k, v =>
      if k' = k then (k', v) :: rest else (k', v') :: setKey rest k v

mutual
/-- The entry loop of `mergeObjects(target, source)`: walks the source's
entries in order and applies `mergeStep` to each. -/
def mergeFields : List (String × JValue) → List (String × JValue) → List (String × JValue)
  | tf, [] => tf
  | tf, (k, v) :: rest => mergeFields (mergeStep tf k v) rest
termination_by _tf sf => sizeOf sf

/-- One entry of the loop: when both the source value and the current
target field are plain objects it recurses, otherwise it assigns the
source value wholesale. -/
def mergeStep (tf : List (String × JValue)) (k : String) (v : JValue) :
    List (String × JValue) :=
  match v, getKey tf k with
  | .obj vf, some (.obj tvf) => setKey tf k (.obj (mergeFields tvf vf))
  | _, _ => setKey tf k v
termination_by sizeOf v
end

/-- `mergeObjects(target, source)` from `validateAndMergeConfig`:
a source that is not a plain object (falsy, an array, a primitive)
leaves the target untouched; so does a target that is not a plain
object, on which the entry loop could store nothing. -/
def mergeObjects : JValue → JValue → JValue
  | .obj tf, .obj sf => .obj (mergeFields tf sf)
  | t, _ => t

/-- `ReviewPolicyManager.defaultConfig` as the untyped field list the
merge actually runs on. -/
def defaultConfigFields : List (String × JValue) :=
  [
    ("general", .obj [
      ("enabled", .vbool true), ("min_size", .vnum 10),
      ("max_size", .vnum 1000), ("style", .vstr "consolidated")]),
    ("focus", .obj [
      ("code_quality", .vbool true), ("security", .vbool true),
      ("performance", .vbool true), ("documentation", .vbool true),
      ("testing", .vbool true), ("architecture", .vbool true)]),
    ("severity", .obj [
      ("critical", .vbool true), ("high", .vbool true),
      ("medium", .vbool true), ("low", .vbool true), ("info", .vbool true)]),
    ("files", .obj [
      ("include", .arr [.vstr "**/*"]), ("exclude", .arr [])]),
    ("custom_rules", .arr []),
    ("ai", .obj [
      ("temperature", .vnum (3 / 10)), ("max_tokens", .vnum 1000),
      ("custom_instructions", .vstr "")])]

/-- The default configuration as a document. -/
def defaultConfigJV : JValue := .obj defaultConfigFields

/-- `validateAndMergeConfig`: a deep clone of the defaults merged with
the parsed document (cloning is the identity in a pure model). -/
def validateAndMergeConfig (config : JValue) : JValue :=
  mergeObjects defaultConfigJV config

/-- The value `mergeStep` stores at its key, as a function of the
current target field. -/
def mergeValue (target : Option JValue) (v : JValue) : JValue :=
  match v, target with
  | .obj vf, some (.obj tvf) => .obj (mergeFields tvf vf)
  | _, _ => v

/-- A well-formed source document: every object in it has distinct keys
(what `js-yaml` hands over: a JavaScript object cannot repeat a key). -/
inductive SrcWF : JValue → Prop where
  | prim : ∀ v, v.isObj = false → SrcWF v
  | obj : ∀ fs, (fs.map Prod.fst).Nodup → (∀ kv ∈ fs, SrcWF kv.2) → SrcWF (.obj fs)

/-! ### Model providers (BedrockProvider, AnthropicProvider, OpenAIProvider)

Each provider stores `modelId`, `maxTokens` and `temperature` in its
constructor and re-resolves them per call in `invokeModel`. Bedrock and
Anthropic resolve with JavaScript `||` at both levels; OpenAI resolves
with `??` at both levels. Numbers are exact rationals: the claims are
about which value is chosen, never about float rounding. -/

/-- JavaScript `a || b` for an optional number: `undefined` and `0` are
falsy (`NaN`, also falsy, has no counterpart in `ℚ`). -/
def jsOrNum (a : Option ℚ) (b : ℚ) : ℚ :=
  match a with
  | some q => if q = 0 then b else q
  | none => b

/-- Provider construction config: the relevant fields of
`BedrockConfig` / `AnthropicConfig` / `OpenAIConfig`. -/
structure ProviderConfig where
  modelId : Option String
  maxTokens : Option ℚ
  temperature : Option ℚ
  deriving Repr, DecidableEq

/-- The per-call `ModelOptions` of the providers. -/
structure ModelOptions where
  modelId : Option String
  maxTokens : Option ℚ
  temperature : Option ℚ
  deriving Repr, DecidableEq

/-- The parameter triple a provider actually sends to its backend. -/
structure ResolvedParams where
  modelId : String
  maxTokens : ℚ
  temperature : ℚ
  deriving Repr, DecidableEq

/-- `BedrockProvider`: constructor stores `config.x || fallback`, and
`invokeModel` computes `options.x || this.x`. -/
def bedrockResolve (options : ModelOptions) (config : ProviderConfig) : ResolvedParams where
  modelId := jsOrStr options.modelId (jsOrStr config.modelId "amazon.titan-text-premier-v1:0")
  maxTokens := jsOrNum options.maxTokens (jsOrNum config.maxTokens 1000)
  temperature := jsOrNum options.temperature (jsOrNum config.temperature (3 / 10))

/-- `AnthropicProvider`: same `||` resolution with its own model
fallback. -/
def anthropicResolve (options : ModelOptions) (config : ProviderConfig) : ResolvedParams where
  modelId := jsOrStr options.modelId (jsOrStr config.modelId "claude-3-opus-20240229")
  maxTokens := jsOrNum options.maxTokens (jsOrNum config.maxTokens 1000)
  temperature := jsOrNum options.temperature (jsOrNum config.temperature (3 / 10))

/-- `OpenAIProvider`: constructor stores `config.x ?? fallback`, and
`invokeModel` computes `options.x ?? this.x`: only `undefined` falls
through, an explicit `0` or empty string is kept. -/
def openaiResolve (options : ModelOptions) (config : ProviderConfig) : ResolvedParams where
  modelId := options.modelId.getD (config.modelId.getD "gpt-4")
  maxTokens := options.maxTokens.getD (config.maxTokens.getD 1000)
  temperature := options.temperature.getD (config.temperature.getD (3 / 10))

/-! ### Response extraction and error propagation in `invokeModel` -/

/-- A JavaScript error carried by value: its class name (`Error`,
`TypeError`) and its message. `String(error)` renders both,
`error.message` only the message. -/
structure JsError where
  name : String
  message : String
  deriving Repr, DecidableEq

/-- `String(error)` / template interpolation of an error object. -/
def jsErrorToString (e : JsError) : String :=
  e.name ++ ": " ++ e.message

/-- A content block of a backend response; `text` may be absent (a
non-text block cast to `TextBlock` has no `text` property). -/
structure ContentBlock where
  text : Option String
  deriving Repr, DecidableEq

/-- `BedrockProvider.invokeModel` after the SDK call: the optional chain
`response?.output?.message?.content ?? []` collapsed to an optional
block list, then `content[0]?.text ?? ''`. The extraction is total; an
SDK error is logged and rethrown unchanged. -/
def bedrockInvokeModel (sdk : Except JsError (Option (List ContentBlock))) :
    Except JsError String :=
  match sdk with
  | .error e => .error e
  | .ok content => .ok ((((content.getD []).head?).bind ContentBlock.text).getD "")

/-- `AnthropicProvider.invokeModel` after the SDK call:
`const aiContent = content[0]?.text` has no `?? ''`, and the next
statement reads `aiContent.length`, so a missing first block (or one
without `text`) raises a `TypeError` inside the `try`, which the
`catch` rethrows; likewise a missing `content`. An SDK error is
rethrown unchanged. -/
def anthropicInvokeModel (sdk : Except JsError (Option (List ContentBlock))) :
    Except JsError String :=
  match sdk with
  | .error e => .error e
  | .ok none =>
      .error ⟨"TypeError", "Cannot read properties of undefined (reading '0')"⟩
  | .ok (some content) =>
      match content.head? >>= ContentBlock.text with
      | none => .error ⟨"TypeError", "Cannot read properties of undefined (reading 'length')"⟩
      | some t => .ok t

/-- One element of `response.choices`, reduced to `message.content`
(`null` when the model returned no text). -/
structure Choice where
  content : Option String
  deriving Repr, DecidableEq

/-- `OpenAIProvider.invokeModel` after the SDK call:
`response.choices[0].message.content` raises a `TypeError` when
`choices` is empty (no optional chaining there); a `null` content
yields `''` through `aiContent ?? ''`. An SDK error is rethrown
unchanged. -/
def openaiInvokeModel (sdk : Except JsError (List Choice)) : Except JsError String :=
  match sdk with
  | .error e => .error e
  | .ok choices =>
      match choices.head? with
      | none => .error ⟨"TypeError", "Cannot read properties of undefined (reading 'message')"⟩
      | some c => .ok (c.content.getD "")

/-! ### ModelManager -/

/-- The manager's registry: provider names in registration order, and
the current default provider. `registerProvider` keeps the invariant
that the default, when set, is registered. -/
structure ManagerState where
  providers : List String
  defaultProvider : Option String
  deriving Repr, DecidableEq

/-- `ModelManager.getProvider`: `this.providers.get(name) ||
this.defaultProvider` — an unregistered name silently resolves to the
default provider. -/
def getProvider (m : ManagerState) (name : String) : Option String :=
  if m.providers.contains name then some name else m.defaultProvider

/-- The manager-level options (`provider`, `modelId`, fallback flags). -/
structure InvokeOptions where
  provider : Option String
  modelId : Option String
  enableFallback : Option Bool
  fallbackProvider : Option String
  deriving Repr, DecidableEq

/-- The manager's `ModelResponse`. `usedFallback` is absent on the
primary path and `true` on the fallback path. -/
structure ModelResponse where
  content : String
  provider : String
  modelId : Option String
  usedFallback : Option Bool
  deriving Repr, DecidableEq

/-- JavaScript truthiness of `options.enableFallback`. -/
def jsTruthyBool : Option Bool → Bool
  | some b => b
  | none => false

/-- JavaScript truthiness of `options.fallbackProvider`. -/
def jsTruthyStr : Option String → Bool
  | some s => s != ""
  | none => false

/-- `ModelManager.invokeModel`. `outcome name` is what provider `name`'s
own `invokeModel` returns for this prompt and options. -/
def managerInvokeModel (m : ManagerState) (options : InvokeOptions)
    (outcome : String → Except JsError String) : Except JsError ModelResponse :=
  let providerName := jsOrStr options.provider (jsOrStr m.defaultProvider "bedrock")
  match getProvider m providerName with
  | none => .error ⟨"Error", "No AI model provider available"⟩
  | some primary =>
    match outcome primary with
    | .ok response => .ok ⟨response, primary, options.modelId, none⟩
    | .error e =>
      if jsTruthyBool options.enableFallback && jsTruthyStr options.fallbackProvider then
        match getProvider m (options.fallbackProvider.getD "") with
        | some fb =>
          if fb ≠ primary then
            match outcome fb with
            | .ok response => .ok ⟨response, fb, options.modelId, some true⟩
            | .error fallbackError => .error fallbackError
          else .error e
        | none => .error e
      else .error e

/-! ### AIService -/

/-- `AIService.formatReviewComment`. `reviewPullRequest` hands it the
whole manager response object as `aiResponse`, so the interpolation
`${aiResponse}` renders JavaScript's default object string rather than
the review text; `provider` and `modelId` are read off the same object
with `|| 'AI'` and `|| 'unknown model'` fallbacks. -/
def formatReviewComment (aiResponse : ModelResponse) : String :=
  "## Automated Code Review\n\n" ++ "[object Object]" ++
  "\n\n---\n*Review generated by AI-Powered PR Review Extension using " ++
  jsOrStr (some aiResponse.provider) "AI" ++ " (" ++
  jsOrStr aiResponse.modelId "unknown model" ++ ")*\n"

/-- The fallback markdown `reviewPullRequest` returns from its `catch`:
a generic failure paragraph and `Error: ${errorMessage}` where
`errorMessage` is the error object itself. -/
def errorReviewTemplate (e : JsError) : String :=
  "## Automated Code Review\n\n" ++
  "I encountered an error while trying to review this pull request. " ++
  "Please try again later or contact the administrator.\n\n" ++
  "Error: " ++ jsErrorToString e ++
  "\n\n---\n*AI-Powered PR Review Extension*"

/-- `AIService.invokeModel`: builds the manager options from the
repository configuration's `ai` section and invokes the manager.
`outcome name prompt` is what provider `name` returns for `prompt`. -/
def aiServiceInvokeModel (m : ManagerState) (repoConfig : ReviewConfig) (prompt : String)
    (outcome : String → String → Except JsError String) : Except JsError ModelResponse :=
  managerInvokeModel m
    ⟨repoConfig.ai.provider, repoConfig.ai.model_id, repoConfig.ai.enable_fallback,
      repoConfig.ai.fallback_provider⟩
    (fun name => outcome name prompt)

/-- `AIService.reviewPullRequest` with the repository configuration
already resolved (`getRepositoryConfig` catches its own errors and
falls back to the defaults, so it never throws). The function is total:
every failure of model invocation is caught and turned into the fixed
error template. -/
def reviewPullRequest (prData : PRData) (repoConfig : ReviewConfig) (m : ManagerState)
    (outcome : String → String → Except JsError String) : String :=
  match aiServiceInvokeModel m repoConfig (generateCustomizedPrompt prData repoConfig) outcome with
  | .ok response => formatReviewComment response
  | .error e => errorReviewTemplate e

/-! ### WebHookController -/

/-- One entry of the controller's `prReviewState` map. -/
structure ReviewState where
  timestamp : Nat
  commentId : String
  deriving Repr, DecidableEq

/-- The `prReviewState` map, in insertion order. -/
abbrev StateMap := List (String × ReviewState)

/-- `Map.get`. -/
def assocGet {α : Type} : List (String × α) → String → Option α
  | [], _ => none
  | (k', v') :: rest, k => if k' = k then some v' else assocGet rest k

/-- `Map.set`: replaces an existing key in place, appends a new one. -/
def assocSet {α : Type} : List (String × α) → String → α → List (String × α)
  | [], k, v => [(k, v)]
  | (k', v') :: rest, k, v =>
      if k' = k then (k', v) :: rest else (k', v') :: assocSet rest k v

/-- `comment.body.includes('/ai-review')`. -/
def containsSub (hay needle : String) : Bool :=
  decide (needle.toList <:+: hay.toList)

/-- What `processPullRequestEvent` reads out of a `pull_request`
payload. -/
structure PullRequestEventData where
  action : String
  owner : String
  repo : String
  prNumber : Nat
  title : String
  body : Option String
  deriving Repr, DecidableEq

/-- What `processIssueCommentEvent` reads out of an `issue_comment`
payload. -/
structure IssueCommentEventData where
  isPullRequest : Bool
  action : String
  commentBody : String
  owner : String
  repo : String
  prNumber : Nat
  deriving Repr, DecidableEq

/-- The controller's `ProcessingResult` (the `error` field only ever
appears in `handleWebHook`'s catch, modelled there). -/
structure ProcessingResult where
  processed : Bool
  reason : Option String
  commentId : Option String
  deriving Repr, DecidableEq

/-- The externally visible side effects of processing one event. -/
structure Effects where
  filesFetched : Nat
  detailsFetched : Nat
  modelInvoked : Nat
  commentsPosted : List String
  deriving Repr, DecidableEq

def noEffects : Effects := ⟨0, 0, 0, []⟩

/-- The dedup key `${owner}/${repo}/${prNumber}`. -/
def prKey (owner repo : String) (prNumber : Nat) : String :=
  owner ++ "/" ++ repo ++ "/" ++ toString prNumber

/-- The cool-down window: `5 * 60 * 1000` milliseconds. -/
def cooldownMs : Nat := 5 * 60 * 1000

/-- `WebHookController.processPullRequestEvent`. `files` is the outcome
of `githubService.getPullRequestFiles`, `createComment` the outcome of
posting a given body; a thrown error is rethrown by the method's catch.
Returns the result (or the escaping error), the updated dedup map and
the effects performed. -/
def processPullRequestEvent (state : StateMap) (now : Nat) (ev : PullRequestEventData)
    (files : Except JsError (List PRFile)) (repoConfig : ReviewConfig) (m : ManagerState)
    (outcome : String → String → Except JsError String)
    (createComment : String → Except JsError String) :
    Except JsError ProcessingResult × StateMap × Effects :=
  if ¬(["opened", "synchronize", "reopened"].contains ev.action) then
    (.ok ⟨false, some ("Action \"" ++ ev.action ++ "\" not supported"), none⟩, state, noEffects)
  else
    let key := prKey ev.owner ev.repo ev.prNumber
    let skip :=
      match assocGet state key with
      | some last => decide (now - last.timestamp < cooldownMs)
      | none => false
    if skip then
      (.ok ⟨false, some "PR was recently processed", none⟩, state, noEffects)
    else
      match files with
      | .error e => (.error e, state, ⟨1, 0, 0, []⟩)
      | .ok fs =>
        if fs.isEmpty then
          (.ok ⟨false, some "No files changed", none⟩, state, ⟨1, 0, 0, []⟩)
        else
          let prData : PRData := ⟨some ev.title, some (jsOrStr ev.body ""), fs, some ev.prNumber⟩
          let review := reviewPullRequest prData repoConfig m outcome
          match createComment review with
          | .error e => (.error e, state, ⟨1, 0, 1, []⟩)
          | .ok commentId =>
            (.ok ⟨true, none, some commentId⟩, assocSet state key ⟨now, commentId⟩,
              ⟨1, 0, 1, [review]⟩)

/-- `WebHookController.processIssueCommentEvent`: the manual trigger.
It neither consults nor updates the dedup map. `prDetails` is the
outcome of `getPullRequestDetails` as `(title, body)`. -/
def processIssueCommentEvent (state : StateMap) (ev : IssueCommentEventData)
    (prDetails : Except JsError (String × Option String))
    (files : Except JsError (List PRFile)) (repoConfig : ReviewConfig) (m : ManagerState)
    (outcome : String → String → Except JsError String)
    (createComment : String → Except JsError String) :
    Except JsError ProcessingResult × StateMap × Effects :=
  if ¬ev.isPullRequest then
    (.ok ⟨false, some "Not a pull request comment", none⟩, state, noEffects)
  else if ev.action ≠ "created" then
    (.ok ⟨false, some ("Action \"" ++ ev.action ++ "\" not supported"), none⟩, state, noEffects)
  else if ¬(containsSub ev.commentBody "/ai-review") then
    (.ok ⟨false, some "Comment does not contain review trigger", none⟩, state, noEffects)
  else
    match prDetails with
    | .error e => (.error e, state, ⟨0, 1, 0, []⟩)
    | .ok (title, mBody) =>
      match files with
      | .error e => (.error e, state, ⟨1, 1, 0, []⟩)
      | .ok fs =>
        let prData : PRData := ⟨some title, some (jsOrStr mBody ""), fs, some ev.prNumber⟩
        let review := reviewPullRequest prData repoConfig m outcome
        match createComment review with
        | .error e => (.error e, state, ⟨1, 1, 1, []⟩)
        | .ok commentId => (.ok ⟨true, none, some commentId⟩, state, ⟨1, 1, 1, [review]⟩)

/-- An inbound webhook, already classified by its `x-github-event`
header. -/
inductive WebhookEvent where
  | pullRequest (ev : PullRequestEventData)
  | issueComment (ev : IssueCommentEventData)
  | other (eventType : String)
  deriving Repr, DecidableEq

/-- The HTTP answer `handleWebHook` sends: status and the JSON body's
fields. -/
structure HttpResponse where
  status : Nat
  processed : Option Bool
  reason : Option String
  commentId : Option String
  error : Option String
  deriving Repr, DecidableEq

/-- `WebHookController.handleWebHook`: signature check first (terminal
401 on failure), then dispatch on the event type, then the top-level
catch that turns any escaped error into a 200 answer with
`{processed: false, error: error.message}`. -/
def handleWebHook (sigValid : Bool) (event : WebhookEvent) (state : StateMap) (now : Nat)
    (prDetails : Except JsError (String × Option String))
    (files : Except JsError (List PRFile)) (repoConfig : ReviewConfig) (m : ManagerState)
    (outcome : String → String → Except JsError String)
    (createComment : String → Except JsError String) :
    HttpResponse × StateMap × Effects :=
  if ¬sigValid then
    (⟨401, none, none, none, some "Invalid signature"⟩, state, noEffects)
  else
    let step :=
      match event with
      | .pullRequest ev =>
          processPullRequestEvent state now ev files repoConfig m outcome createComment
      | .issueComment ev =>
          processIssueCommentEvent state ev prDetails files repoConfig m outcome createComment
      | .other t =>
          (.ok ⟨false, some ("Event type \"" ++ t ++ "\" not supported"), none⟩, state, noEffects)
    match step with
    | (.ok r, state', eff) => (⟨200, some r.processed, r.reason, r.commentId, none⟩, state', eff)
    | (.error e, state', eff) => (⟨200, some false, none, none, some e.message⟩, state', eff)

/-! ## Theorems settling the claims -/

/-- Helper: every entry of `nonSlashSuffixes s` is a suffix of `s`. -/
theorem nonSlashSuffixes_suffix : ∀ s x : List Char, x ∈ nonSlashSuffixes s → x <:+ s := by
  intro s
  induction s with
  | nil =>
    intro x hx
    simp [nonSlashSuffixes] at hx
    simp [hx]
  | cons c s ih =>
    intro x hx
    by_cases h : c = '/'
    · subst h
      simp [nonSlashSuffixes] at hx
      simp [hx]
    · simp [nonSlashSuffixes, h] at hx
      rcases hx with hx | hx
      · simp [hx]
      · exact (ih x hx).trans (List.suffix_cons c s)

/-- Helper: a literal `/` atom cannot match a separator-free string. -/
theorem matchAtoms_lit_slash_false (as : List RegexAtom) (t : List Char) (h : '/' ∉ t) :
    matchAtoms (.lit '/' :: as) t = false := by
  cases t with
  | nil => rfl
  | cons c t' =>
    have hc : (('/' : Char) == c) = false := by
      refine beq_eq_false_iff_ne.mpr ?_
      intro he
      exact h (by rw [he]; exact List.mem_cons_self c t')
    simp [matchAtoms, hc]

/-- Helper: the compiled form of the default include pattern `**/*` —
one arbitrary character, a non-separator run, a literal `/`, a
non-separator run — rejects every separator-free path. -/
theorem matchAtoms_default_include_false (s : List Char) (h : '/' ∉ s) :
    matchAtoms [.anyChar, .nonSlashStar, .lit '/', .nonSlashStar] s = false := by
  cases s with
  | nil => rfl
  | cons c s' =>
    have hs' : '/' ∉ s' := fun hm => h (List.mem_cons_of_mem c hm)
    show (nonSlashSuffixes s').any (fun x => matchAtoms [.lit '/', .nonSlashStar] x) = false
    rw [List.any_eq_false]
    intro x hx
    have hxin : '/' ∉ x := fun hm => hs' ((nonSlashSuffixes_suffix s' x hx).subset hm)
    simp [matchAtoms_lit_slash_false [.nonSlashStar] x hxin]

/-- Helper: under the default configuration a separator-free path is
filtered out. -/
theorem shouldIncludeFile_default_rootfile (p : String) (h : '/' ∉ p.toList) :
    shouldIncludeFile p defaultConfig = false := by
  have hm : matchesPattern p "**/*" = false := by
    have ht : globTranslate "**/*".toList =
        [.anyChar, .nonSlashStar, .lit '/', .nonSlashStar] := rfl
    unfold matchesPattern
    rw [ht]
    exact matchAtoms_default_include_false p.toList h
  simp [shouldIncludeFile, defaultConfig, hm]

/-- Helper: `String.join` of a cons. -/
theorem string_join_cons (a : String) (l : List String) :
    String.join (a :: l) = a ++ String.join l := by
  apply String.ext
  simp [String.join_eq, String.data_append]

/-- Helper: prepending the empty string is the identity. -/
theorem string_empty_append (s : String) : "" ++ s = s := by
  apply String.ext
  simp [String.data_append]

/-- Helper: file sections that render empty can be dropped from the
joined block. -/
theorem join_fileSections_filter (config : ReviewConfig) (pb : PRFile → Bool)
    (h : ∀ f, pb f = false → fileSection config f = "") :
    ∀ l : List PRFile,
      String.join (l.map (fileSection config)) =
        String.join ((l.filter pb).map (fileSection config)) := by
  intro l
  induction l with
  | nil => rfl
  | cons f t ih =>
    cases hf : pb f with
    | true => simp [List.filter_cons, hf, string_join_cons, ih]
    | false =>
      simp [List.filter_cons, hf, string_join_cons, h f hf, string_empty_append, ih]

/-- Helper: membership in `nonSlashSuffixes` is exactly being reachable
by deleting a separator-free prefix. -/
theorem mem_nonSlashSuffixes_iff : ∀ s x : List Char,
    x ∈ nonSlashSuffixes s ↔ ∃ mid, s = mid ++ x ∧ '/' ∉ mid := by
  intro s
  induction s with
  | nil =>
    intro x
    simp only [nonSlashSuffixes, List.mem_singleton, List.nil_eq_append_iff]
    constructor
    · rintro rfl
      exact ⟨[], ⟨rfl, rfl⟩, by simp⟩
    · rintro ⟨mid, ⟨-, hx⟩, -⟩
      exact hx
  | cons c s ih =>
    intro x
    by_cases hc : c = '/'
    · subst hc
      simp only [nonSlashSuffixes, if_pos rfl]
      constructor
      · intro hx
        simp at hx
        exact ⟨[], by simp [hx], by simp⟩
      · rintro ⟨mid, hmid, hslash⟩
        cases mid with
        | nil =>
          simp at hmid
          simp [hmid]
        | cons m ms =>
          simp at hmid
          exact absurd (by simp [hmid.1.symm] : ('/' : Char) ∈ m :: ms) hslash
    · simp only [nonSlashSuffixes, if_neg hc]
      constructor
      · intro hx
        rcases List.mem_cons.mp hx with hx | hx
        · exact ⟨[], by simp [hx], by simp⟩
        · rcases (ih x).mp hx with ⟨mid, hmid, hm⟩
          refine ⟨c :: mid, by simp [hmid], ?_⟩
          intro hmem
          rcases List.mem_cons.mp hmem with h1 | h1
          · exact hc h1.symm
          · exact hm h1
      · rintro ⟨mid, hmid, hm⟩
        cases mid with
        | nil =>
          simp at hmid
          rw [hmid]
          exact List.mem_cons_self _ _
        | cons m ms =>
          simp at hmid
          exact List.mem_cons.mpr (Or.inr ((ih x).mpr
            ⟨ms, hmid.2, fun hmem => hm (List.mem_cons_of_mem m hmem)⟩))

/-- Helper: how the code's compiled `**` actually matches — one
arbitrary character (which may itself be the separator), then a run of
non-separator characters. -/
theorem matchAtoms_doubleStar_iff (rest s : List Char) :
    matchAtoms (globTranslate ('*' :: '*' :: rest)) s = true ↔
      ∃ c mid s', s = c :: (mid ++ s') ∧ '/' ∉ mid ∧
        matchAtoms (globTranslate rest) s' = true := by
  have hg : globTranslate ('*' :: '*' :: rest) =
      .anyChar :: .nonSlashStar :: globTranslate rest := by
    simp [globTranslate]
  rw [hg]
  cases s with
  | nil => simp [matchAtoms]
  | cons c s1 =>
    show ((nonSlashSuffixes s1).any fun x => matchAtoms (globTranslate rest) x) = true ↔ _
    rw [List.any_eq_true]
    constructor
    · rintro ⟨x, hx, hmatch⟩
      rcases (mem_nonSlashSuffixes_iff s1 x).mp hx with ⟨mid, hmid, hm⟩
      exact ⟨c, mid, x, by simp [hmid], hm, hmatch⟩
    · rintro ⟨c', mid, s', heq, hm, hmatch⟩
      injection heq with h1 h2
      exact ⟨s', (mem_nonSlashSuffixes_iff s1 s').mpr ⟨mid, h2, hm⟩, hmatch⟩

/-- Helper: on patterns without `**` the code's compilation and the
spec's wildcard semantics agree atom for atom. -/
theorem globTranslate_eq_spec_of_noDoubleStar :
    ∀ p : List Char, hasDoubleStar p = false → globTranslate p = specGlobTranslate p
  | [], _ => rfl
  | c :: [], _ => by
    by_cases hc : c = '*'
    · subst hc; rfl
    · by_cases hq : c = '?'
      · subst hq; rfl
      · simp [globTranslate, specGlobTranslate, hc, hq]
  | c :: c2 :: rest, h => by
    have hsplit : (c == '*' && c2 == '*') = false ∧ hasDoubleStar (c2 :: rest) = false := by
      have := h
      simp only [hasDoubleStar, Bool.or_eq_false_iff] at this
      exact this
    have ih := globTranslate_eq_spec_of_noDoubleStar (c2 :: rest) hsplit.2
    by_cases hc : c = '*'
    · subst hc
      have hc2 : ¬(c2 = '*') := by
        intro he
        subst he
        simp at hsplit
      simp [globTranslate, specGlobTranslate, hc2, ih]
    · by_cases hq : c = '?'
      · subst hq; simp [globTranslate, specGlobTranslate, ih]
      · simp [globTranslate, specGlobTranslate, hc, hq, ih]

/-- C2, counterexample: under the code's compilation `**` does not
match across path separators — the doubly nested `a/b/c.ts` fails the
include pattern `**/*.ts` (and is excluded), while the spec's stated
semantics accepts it; so the claim's "for every path of any nesting
depth" universal fails at this input. -/
theorem c2_counterexample_doublestar_not_cross_separator :
    matchesPattern "a/b/c.ts" "**/*.ts" = false ∧
    specMatchesPattern "a/b/c.ts" "**/*.ts" = true ∧
    shouldIncludeFile "a/b/c.ts" (cfgWithFiles ⟨["**/*.ts"], ["**/*.test.ts"]⟩) = false := by
  refine ⟨by decide, by decide, by decide⟩

/-- C2, amended: a path is included iff it matches at least one include
pattern and no exclude pattern; `*` matches within a segment, `?`
matches one character and dots are literal exactly as the spec says
(on `**`-free patterns the compilation coincides with the spec
semantics); but `**` compiles to "one arbitrary character followed by a
run of non-separator characters" — the `*` of the inserted `.*` is
itself rewritten by the later `*` replacement — instead of matching
across separators; the one-level example still holds: with include
`**/*.ts` and exclude `**/*.test.ts`, `src/a.ts` is included and
`src/a.test.ts` is excluded. -/
theorem c2_amended_include_rule_and_wildcards :
    (∀ (path : String) (config : ReviewConfig),
        shouldIncludeFile path config = true ↔
          ((∃ pat ∈ config.files.include', matchesPattern path pat = true) ∧
            ∀ pat ∈ config.files.exclude, matchesPattern path pat = false)) ∧
    (∀ rest s, matchAtoms (globTranslate ('*' :: '*' :: rest)) s = true ↔
        ∃ c mid s', s = c :: (mid ++ s') ∧ '/' ∉ mid ∧
          matchAtoms (globTranslate rest) s' = true) ∧
    (∀ p : List Char, hasDoubleStar p = false → globTranslate p = specGlobTranslate p) ∧
    shouldIncludeFile "src/a.ts" (cfgWithFiles ⟨["**/*.ts"], ["**/*.test.ts"]⟩) = true ∧
    shouldIncludeFile "src/a.test.ts" (cfgWithFiles ⟨["**/*.ts"], ["**/*.test.ts"]⟩) = false := by
  refine ⟨?_, matchAtoms_doubleStar_iff, globTranslate_eq_spec_of_noDoubleStar,
    by decide, by decide⟩
  intro path config
  simp only [shouldIncludeFile, Bool.and_eq_true, Bool.not_eq_true', List.any_eq_true,
    List.any_eq_false]
  constructor
  · rintro ⟨hexc, hinc⟩
    exact ⟨hinc, fun pat hp => by simpa using hexc pat hp⟩
  · rintro ⟨hinc, hexc⟩
    exact ⟨fun pat hp => by simpa using hexc pat hp, hinc⟩

/-- C2, witness: the amended theorem applied at concrete inputs — the
`**`-free pattern `*.ts` compiles exactly to the spec's semantics, and
the `**` characterization instantiated at `src/a.ts`. -/
theorem c2_amended_include_rule_and_wildcards_witness :
    globTranslate "*.ts".toList = specGlobTranslate "*.ts".toList ∧
    (shouldIncludeFile "src/a.ts" (cfgWithFiles ⟨["**/*.ts"], []⟩) = true ↔
      ((∃ pat ∈ ["**/*.ts"], matchesPattern "src/a.ts" pat = true) ∧
        ∀ pat ∈ ([] : List String), matchesPattern "src/a.ts" pat = false)) :=
  ⟨c2_amended_include_rule_and_wildcards.2.2.1 "*.ts".toList (by decide),
   c2_amended_include_rule_and_wildcards.1 "src/a.ts" (cfgWithFiles ⟨["**/*.ts"], []⟩)⟩

/-- C9: under the default policy (`include: ['**/*']`, `exclude: []`)
every separator-free path — a repository-root file — is excluded by
`shouldIncludeFile`, its per-file section in the prompt is empty, and
the rendered prompt equals the prompt rendered from the same PR with
all root-level files dropped. -/
theorem c9_default_policy_excludes_root_files :
    (∀ p : String, '/' ∉ p.toList → shouldIncludeFile p defaultConfig = false) ∧
    (∀ f : PRFile, '/' ∉ f.filename.toList → fileSection defaultConfig f = "") ∧
    (∀ prData : PRData,
        generateCustomizedPrompt prData defaultConfig =
          generateCustomizedPrompt
            ⟨prData.title, prData.body,
              prData.files.filter (fun f => f.filename.toList.contains '/'), prData.number⟩
            defaultConfig) := by
  have hsec : ∀ f : PRFile, '/' ∉ f.filename.toList → fileSection defaultConfig f = "" := by
    intro f hf
    simp [fileSection, shouldIncludeFile_default_rootfile f.filename hf]
  refine ⟨shouldIncludeFile_default_rootfile, hsec, ?_⟩
  intro prData
  have hdrop : ∀ f : PRFile, (f.filename.toList.contains '/') = false →
      fileSection defaultConfig f = "" := by
    intro f hf
    refine hsec f fun hm => ?_
    have hc : f.filename.toList.contains '/' = true := List.elem_eq_true_of_mem hm
    rw [hc] at hf
    exact Bool.noConfusion hf
  simp only [generateCustomizedPrompt]
  rw [join_fileSections_filter defaultConfig _ hdrop prData.files]

/-- C9, witness: the theorem applied at the concrete root-level path
`README.md` and a PR consisting only of that file. -/
theorem c9_default_policy_excludes_root_files_witness :
    shouldIncludeFile "README.md" defaultConfig = false ∧
    fileSection defaultConfig ⟨"README.md", false, some "diff"⟩ = "" :=
  ⟨c9_default_policy_excludes_root_files.1 "README.md" (by decide),
   c9_default_policy_excludes_root_files.2.1 ⟨"README.md", false, some "diff"⟩ (by decide)⟩

/-- C8: an inbound event whose signature fails validation gets HTTP 401
and nothing else happens: no files or PR details are fetched, no model
is invoked, no comment is posted, and the dedup map is returned
unchanged, whatever the event, the clock, the stored state and the
service outcomes. -/
theorem c8_invalid_signature_rejected_without_side_effects
    (event : WebhookEvent) (state : StateMap) (now : Nat)
    (prDetails : Except JsError (String × Option String))
    (files : Except JsError (List PRFile)) (repoConfig : ReviewConfig) (m : ManagerState)
    (outcome : String → String → Except JsError String)
    (createComment : String → Except JsError String) :
    handleWebHook false event state now prDetails files repoConfig m outcome createComment =
      (⟨401, none, none, none, some "Invalid signature"⟩, state, noEffects) := by
  rfl

/-- C6, counterexample: on Bedrock an explicitly supplied per-call
temperature of `0` is not the value used — the `||` chain treats `0` as
absent and the provider's configured default `7/10` wins, contradicting
the claim that an explicit value (including `0`) is always used. -/
theorem c6_counterexample_bedrock_zero_temperature_ignored :
    (bedrockResolve ⟨none, none, some 0⟩ ⟨none, none, some (7 / 10)⟩).temperature = 7 / 10 ∧
    (7 / 10 : ℚ) ≠ 0 := by
  constructor
  · simp [bedrockResolve, jsOrNum]
  · norm_num

/-- C6, amended: the precedence explicit-option over configured-default
over backend constant holds with `??` semantics on OpenAI (an explicit
value, `0` included, always wins) and with `||` semantics on Bedrock and
Anthropic (an explicit value wins only when nonzero resp. nonempty; an
explicit `0` or `""` is treated exactly as an absent option); with
nothing supplied at either level the constants `1000`, `3/10` and the
per-provider model ids apply. -/
theorem c6_amended_resolution_precedence :
    (∀ o c v, o.maxTokens = some v → (openaiResolve o c).maxTokens = v) ∧
    (∀ o c v, o.temperature = some v → (openaiResolve o c).temperature = v) ∧
    (∀ o c s, o.modelId = some s → (openaiResolve o c).modelId = s) ∧
    (∀ o c v, o.temperature = some v → v ≠ 0 →
      (bedrockResolve o c).temperature = v ∧ (anthropicResolve o c).temperature = v) ∧
    (∀ o c v, o.maxTokens = some v → v ≠ 0 →
      (bedrockResolve o c).maxTokens = v ∧ (anthropicResolve o c).maxTokens = v) ∧
    (∀ o c s, o.modelId = some s → s ≠ "" →
      (bedrockResolve o c).modelId = s ∧ (anthropicResolve o c).modelId = s) ∧
    (∀ o c, o.temperature = some 0 →
      (bedrockResolve o c).temperature =
        (bedrockResolve ⟨o.modelId, o.maxTokens, none⟩ c).temperature) ∧
    (∀ o c v, o.temperature = none → c.temperature = some v → v ≠ 0 →
      (bedrockResolve o c).temperature = v ∧ (anthropicResolve o c).temperature = v) ∧
    (∀ o c v, o.temperature = none → c.temperature = some v →
      (openaiResolve o c).temperature = v) ∧
    bedrockResolve ⟨none, none, none⟩ ⟨none, none, none⟩ =
      ⟨"amazon.titan-text-premier-v1:0", 1000, 3 / 10⟩ ∧
    anthropicResolve ⟨none, none, none⟩ ⟨none, none, none⟩ =
      ⟨"claude-3-opus-20240229", 1000, 3 / 10⟩ ∧
    openaiResolve ⟨none, none, none⟩ ⟨none, none, none⟩ = ⟨"gpt-4", 1000, 3 / 10⟩ := by
  refine ⟨?_, ?_, ?_, ?_, ?_, ?_, ?_, ?_, ?_, rfl, rfl, rfl⟩
  · intro o c v h; simp [openaiResolve, h]
  · intro o c v h; simp [openaiResolve, h]
  · intro o c s h; simp [openaiResolve, h]
  · intro o c v h hv
    constructor <;> simp [bedrockResolve, anthropicResolve, jsOrNum, h, hv]
  · intro o c v h hv
    constructor <;> simp [bedrockResolve, anthropicResolve, jsOrNum, h, hv]
  · intro o c s h hs
    constructor <;> simp [bedrockResolve, anthropicResolve, jsOrStr, h, hs]
  · intro o c h; simp [bedrockResolve, jsOrNum, h]
  · intro o c v h hc hv
    constructor <;> simp [bedrockResolve, anthropicResolve, jsOrNum, h, hc, hv]
  · intro o c v h hc; simp [openaiResolve, h, hc]

/-- C6, witness: the amended theorem applied at concrete inputs — an
explicit OpenAI `maxTokens` of `0` is used, an explicit nonzero Bedrock
temperature is used. -/
theorem c6_amended_resolution_precedence_witness :
    (openaiResolve ⟨none, some 0, none⟩ ⟨none, some 5, none⟩).maxTokens = 0 ∧
    (bedrockResolve ⟨none, none, some (1 / 2)⟩ ⟨none, none, none⟩).temperature = 1 / 2 :=
  ⟨c6_amended_resolution_precedence.1 ⟨none, some 0, none⟩ ⟨none, some 5, none⟩ 0 rfl,
   (c6_amended_resolution_precedence.2.2.2.1 ⟨none, none, some (1 / 2)⟩ ⟨none, none, none⟩
      (1 / 2) rfl (by norm_num)).1⟩

/-- C7, counterexample: an Anthropic backend response with an empty
content list does not yield an empty string — `invokeModel` raises (the
logging line reads `.length` off the undefined `content[0]?.text`),
contradicting the claim that an empty/missing first block yields `''`
for every provider and that errors arise only from the SDK throwing. -/
theorem c7_counterexample_anthropic_empty_content_throws :
    anthropicInvokeModel (.ok (some [])) =
      .error ⟨"TypeError", "Cannot read properties of undefined (reading 'length')"⟩ ∧
    anthropicInvokeModel (.ok (some [])) ≠ .ok "" := by
  refine ⟨rfl, ?_⟩
  intro h
  exact Except.noConfusion h

/-- C7, amended: Bedrock returns `''` on a missing or empty first text
block; OpenAI returns `''` when the first choice's content is `null`
but raises a `TypeError` when there is no choice at all; Anthropic
returns the text of a present first block but raises a `TypeError` when
the block or its text is missing; and every provider rethrows an SDK
error unchanged — the raw backend error object, carrying only the
backend message (no `ProviderInvocationError` wrapper exists; the
provider name appears only in logs). -/
theorem c7_amended_extraction_and_error_propagation :
    (∀ e, bedrockInvokeModel (.error e) = .error e ∧
      anthropicInvokeModel (.error e) = .error e ∧
      openaiInvokeModel (.error e) = .error e) ∧
    bedrockInvokeModel (.ok none) = .ok "" ∧
    bedrockInvokeModel (.ok (some [])) = .ok "" ∧
    (∀ bs, bedrockInvokeModel (.ok (some (⟨none⟩ :: bs))) = .ok "") ∧
    (∀ t bs, bedrockInvokeModel (.ok (some (⟨some t⟩ :: bs))) = .ok t) ∧
    (∀ t bs, anthropicInvokeModel (.ok (some (⟨some t⟩ :: bs))) = .ok t) ∧
    (∀ bs, anthropicInvokeModel (.ok (some (⟨none⟩ :: bs))) =
      .error ⟨"TypeError", "Cannot read properties of undefined (reading 'length')"⟩) ∧
    anthropicInvokeModel (.ok none) =
      .error ⟨"TypeError", "Cannot read properties of undefined (reading '0')"⟩ ∧
    openaiInvokeModel (.ok []) =
      .error ⟨"TypeError", "Cannot read properties of undefined (reading 'message')"⟩ ∧
    (∀ cs, openaiInvokeModel (.ok (⟨none⟩ :: cs)) = .ok "") ∧
    (∀ t cs, openaiInvokeModel (.ok (⟨some t⟩ :: cs)) = .ok t) :=
  ⟨fun _ => ⟨rfl, rfl, rfl⟩, rfl, rfl, fun _ => rfl, fun _ _ => rfl, fun _ _ => rfl,
   fun _ => rfl, rfl, rfl, fun _ => rfl, fun _ _ => rfl⟩

/-- C7, witness: the amended theorem applied at concrete inputs — a
concrete SDK error propagates unchanged through Bedrock, and a concrete
one-block Anthropic response yields its text. -/
theorem c7_amended_extraction_and_error_propagation_witness :
    bedrockInvokeModel (.error ⟨"Error", "throttled"⟩) = .error ⟨"Error", "throttled"⟩ ∧
    anthropicInvokeModel (.ok (some [⟨some "hi"⟩])) = .ok "hi" :=
  ⟨(c7_amended_extraction_and_error_propagation.1 ⟨"Error", "throttled"⟩).1,
   c7_amended_extraction_and_error_propagation.2.2.2.2.2.1 "hi" []⟩

/-- C1, counterexample: with `bedrock` (the default) and `openai`
registered, primary `openai` failing, fallback enabled and
`fallbackProvider: "anthropic"` — a name that is *not* registered — the
manager does not propagate the primary's error: `getProvider`
substitutes the default provider for the unknown name, `bedrock` is
attempted and its answer is returned with `usedFallback: true`,
contradicting the claim that an unavailable fallback propagates the
primary's error unchanged. -/
theorem c1_counterexample_unregistered_fallback_substitutes_default :
    managerInvokeModel ⟨["bedrock", "openai"], some "bedrock"⟩
        ⟨some "openai", none, some true, some "anthropic"⟩
        (fun name => if name = "openai" then .error ⟨"Error", "openai down"⟩
                     else .ok "from bedrock") =
      .ok ⟨"from bedrock", "bedrock", none, some true⟩ ∧
    ("anthropic" ∈ (["bedrock", "openai"] : List String)) = False := by
  constructor
  · rfl
  · simp

/-- C1, amended: on primary failure with `enableFallback` truthy and a
nonempty `fallbackProvider`, the manager resolves the fallback name
through `getProvider` — which substitutes the default provider for an
unregistered name — and attempts the resolved provider exactly once iff
it exists and its name differs from the primary's, returning
`usedFallback: true` with its content on success and propagating the
fallback's error on failure; in every other case (fallback disabled,
name falsy, resolved provider missing or equal to the primary) the
primary's error propagates unchanged. A registered distinct fallback
name is attempted itself; an unregistered one falls to the default. -/
theorem c1_amended_fallback_behaviour :
    (∀ m o outcome p r,
        getProvider m (jsOrStr o.provider (jsOrStr m.defaultProvider "bedrock")) = some p →
        outcome p = .ok r →
        managerInvokeModel m o outcome = .ok ⟨r, p, o.modelId, none⟩) ∧
    (∀ m o outcome p e fb,
        getProvider m (jsOrStr o.provider (jsOrStr m.defaultProvider "bedrock")) = some p →
        outcome p = .error e →
        o.enableFallback = some true → o.fallbackProvider = some fb →
        fb ≠ "" → fb ∈ m.providers → fb ≠ p →
        managerInvokeModel m o outcome =
          (match outcome fb with
           | .ok r => .ok ⟨r, fb, o.modelId, some true⟩
           | .error fallbackError => .error fallbackError)) ∧
    (∀ m o outcome p e,
        getProvider m (jsOrStr o.provider (jsOrStr m.defaultProvider "bedrock")) = some p →
        outcome p = .error e →
        jsTruthyBool o.enableFallback = false ∨ jsTruthyStr o.fallbackProvider = false →
        managerInvokeModel m o outcome = .error e) ∧
    (∀ m o outcome p e fb,
        getProvider m (jsOrStr o.provider (jsOrStr m.defaultProvider "bedrock")) = some p →
        outcome p = .error e →
        o.enableFallback = some true → o.fallbackProvider = some fb → fb ≠ "" →
        getProvider m fb = some p →
        managerInvokeModel m o outcome = .error e) ∧
    (∀ m o outcome p e fb,
        getProvider m (jsOrStr o.provider (jsOrStr m.defaultProvider "bedrock")) = some p →
        outcome p = .error e →
        o.enableFallback = some true → o.fallbackProvider = some fb → fb ≠ "" →
        getProvider m fb = none →
        managerInvokeModel m o outcome = .error e) ∧
    (∀ m o outcome p e fb d,
        getProvider m (jsOrStr o.provider (jsOrStr m.defaultProvider "bedrock")) = some p →
        outcome p = .error e →
        o.enableFallback = some true → o.fallbackProvider = some fb → fb ≠ "" →
        fb ∉ m.providers → m.defaultProvider = some d → d ≠ p →
        managerInvokeModel m o outcome =
          (match outcome d with
           | .ok r => .ok ⟨r, d, o.modelId, some true⟩
           | .error fallbackError => .error fallbackError)) := by
  refine ⟨?_, ?_, ?_, ?_, ?_, ?_⟩
  · intro m o outcome p r h1 h2
    simp [managerInvokeModel, h1, h2]
  · intro m o outcome p e fb h1 h2 h3 h4 h5 h6 h7
    have hc : m.providers.contains fb = true := List.elem_eq_true_of_mem h6
    have hfb : getProvider m fb = some fb := by
      simp only [getProvider, hc]
      simp
    simp only [managerInvokeModel]
    rw [h1]
    simp [h2, h3, h4, h5, h7, jsTruthyBool, jsTruthyStr, hfb]
  · intro m o outcome p e h1 h2 h3
    rcases h3 with h3 | h3 <;> simp [managerInvokeModel, h1, h2, h3]
  · intro m o outcome p e fb h1 h2 h3 h4 h5 h6
    simp [managerInvokeModel, h1, h2, h3, h4, h5, h6, jsTruthyBool, jsTruthyStr]
  · intro m o outcome p e fb h1 h2 h3 h4 h5 h6
    simp [managerInvokeModel, h1, h2, h3, h4, h5, h6, jsTruthyBool, jsTruthyStr]
  · intro m o outcome p e fb d h1 h2 h3 h4 h5 h6 h7 h8
    have hc : m.providers.contains fb = false := by
      cases hcc : m.providers.contains fb
      · rfl
      · exact absurd (List.mem_of_elem_eq_true hcc) h6
    have hfb : getProvider m fb = some d := by
      simp only [getProvider, hc, h7]
      simp
    simp only [managerInvokeModel]
    rw [h1]
    simp [h2, h3, h4, h5, h8, jsTruthyBool, jsTruthyStr, hfb]

/-- C1, witness: the amended theorem applied at a concrete state — a
registered distinct fallback (`openai`) is attempted after the primary
(`bedrock`) fails, and its answer comes back with `usedFallback`. -/
theorem c1_amended_fallback_behaviour_witness :
    managerInvokeModel ⟨["bedrock", "openai"], some "bedrock"⟩
        ⟨some "bedrock", none, some true, some "openai"⟩
        (fun name => if name = "bedrock" then .error ⟨"Error", "bedrock down"⟩
                     else .ok "fallback answer") =
      .ok ⟨"fallback answer", "openai", none, some true⟩ :=
  c1_amended_fallback_behaviour.2.1 ⟨["bedrock", "openai"], some "bedrock"⟩
    ⟨some "bedrock", none, some true, some "openai"⟩
    (fun name => if name = "bedrock" then .error ⟨"Error", "bedrock down"⟩
                 else .ok "fallback answer")
    "bedrock" ⟨"Error", "bedrock down"⟩ "openai"
    rfl rfl rfl rfl (by decide) (by decide) (by decide)

/-- Helper: when model invocation fails, `reviewPullRequest` returns
the fixed error template. -/
theorem reviewPullRequest_error (prData : PRData) (repoConfig : ReviewConfig)
    (m : ManagerState) (outcome : String → String → Except JsError String) (e : JsError)
    (h : aiServiceInvokeModel m repoConfig (generateCustomizedPrompt prData repoConfig) outcome =
      .error e) :
    reviewPullRequest prData repoConfig m outcome = errorReviewTemplate e := by
  simp [reviewPullRequest, h]

/-- Helper: a pull-request event with an eligible action, no dedup hit
and a nonempty file list reviews, posts and records. -/
theorem processPullRequestEvent_success (state : StateMap) (now : Nat)
    (ev : PullRequestEventData) (fs : List PRFile) (repoConfig : ReviewConfig)
    (m : ManagerState) (outcome : String → String → Except JsError String) (cid : String)
    (h1 : (["opened", "synchronize", "reopened"].contains ev.action) = true)
    (h2 : assocGet state (prKey ev.owner ev.repo ev.prNumber) = none)
    (h3 : fs ≠ []) :
    processPullRequestEvent state now ev (.ok fs) repoConfig m outcome (fun _ => .ok cid) =
      (.ok ⟨true, none, some cid⟩,
        assocSet state (prKey ev.owner ev.repo ev.prNumber) ⟨now, cid⟩,
        ⟨1, 0, 1,
          [reviewPullRequest ⟨some ev.title, some (jsOrStr ev.body ""), fs, some ev.prNumber⟩
            repoConfig m outcome]⟩) := by
  cases fs with
  | nil => exact absurd rfl h3
  | cons f rest =>
    simp only [processPullRequestEvent, h1, h2]
    simp

/-- C10: `reviewPullRequest` is total at its boundary — it returns a
string for every input, and whenever model invocation fails (for any
error, the `No AI model provider available` case included) the string
is the fixed error template carrying the error's text; and the webhook
pull-request path still posts that string as a comment and reports
`processed: true` with the comment id. -/
theorem c10_review_never_throws_and_comment_still_posted :
    (∀ prData repoConfig m outcome e,
        aiServiceInvokeModel m repoConfig (generateCustomizedPrompt prData repoConfig) outcome =
          .error e →
        reviewPullRequest prData repoConfig m outcome = errorReviewTemplate e) ∧
    (∀ state now ev fs repoConfig m outcome cid,
        (["opened", "synchronize", "reopened"].contains ev.action) = true →
        assocGet state (prKey ev.owner ev.repo ev.prNumber) = none →
        fs ≠ [] →
        processPullRequestEvent state now ev (.ok fs) repoConfig m outcome (fun _ => .ok cid) =
          (.ok ⟨true, none, some cid⟩,
            assocSet state (prKey ev.owner ev.repo ev.prNumber) ⟨now, cid⟩,
            ⟨1, 0, 1,
              [reviewPullRequest ⟨some ev.title, some (jsOrStr ev.body ""), fs, some ev.prNumber⟩
                repoConfig m outcome]⟩)) := by
  constructor
  · intro prData repoConfig m outcome e h
    exact reviewPullRequest_error prData repoConfig m outcome e h
  · intro state now ev fs repoConfig m outcome cid h1 h2 h3
    exact processPullRequestEvent_success state now ev fs repoConfig m outcome cid h1 h2 h3

/-- C10, witness: the theorem's second part applied at a concrete
event — the model failing with `No AI model provider available` still
ends in a posted comment and `processed: true`. -/
theorem c10_review_never_throws_and_comment_still_posted_witness :
    processPullRequestEvent [] 0 ⟨"opened", "o", "r", 1, "T", none⟩
        (.ok [⟨"src/a.ts", false, some "d"⟩]) defaultConfig ⟨[], none⟩
        (fun _ _ => .ok "unused") (fun _ => .ok "c1") =
      (.ok ⟨true, none, some "c1"⟩,
        assocSet [] (prKey "o" "r" 1) ⟨0, "c1"⟩,
        ⟨1, 0, 1,
          [reviewPullRequest ⟨some "T", some (jsOrStr none ""), [⟨"src/a.ts", false, some "d"⟩],
              some 1⟩
            defaultConfig ⟨[], none⟩ (fun _ _ => .ok "unused")]⟩) :=
  c10_review_never_throws_and_comment_still_posted.2 [] 0 ⟨"opened", "o", "r", 1, "T", none⟩
    [⟨"src/a.ts", false, some "d"⟩] defaultConfig ⟨[], none⟩
    (fun _ _ => Except.ok "unused") "c1"
    rfl rfl (by simp)

/-- Helper: looking up the key just set returns the value just set. -/
theorem assocGet_assocSet_self {α : Type} (l : List (String × α)) (k : String) (v : α) :
    assocGet (assocSet l k v) k = some v := by
  induction l with
  | nil => simp [assocSet, assocGet]
  | cons hd tl ih =>
    rcases hd with ⟨k', v'⟩
    by_cases hk : k' = k
    · simp [assocSet, assocGet, hk]
    · simp [assocSet, assocGet, hk, ih]

/-- Helper: a pull-request event whose dedup entry is too recent is
skipped without effects. -/
theorem processPullRequestEvent_skip (state : StateMap) (now : Nat)
    (ev : PullRequestEventData) (files : Except JsError (List PRFile))
    (repoConfig : ReviewConfig) (m : ManagerState)
    (outcome : String → String → Except JsError String)
    (createComment : String → Except JsError String) (last : ReviewState)
    (h1 : (["opened", "synchronize", "reopened"].contains ev.action) = true)
    (h2 : assocGet state (prKey ev.owner ev.repo ev.prNumber) = some last)
    (h3 : now - last.timestamp < cooldownMs) :
    processPullRequestEvent state now ev files repoConfig m outcome createComment =
      (.ok ⟨false, some "PR was recently processed", none⟩, state, noEffects) := by
  simp only [processPullRequestEvent, h1, h2]
  simp [h3]

/-- Helper: a pull-request event whose dedup entry is older than the
window runs like a fresh one. -/
theorem processPullRequestEvent_success_expired (state : StateMap) (now : Nat)
    (ev : PullRequestEventData) (fs : List PRFile) (repoConfig : ReviewConfig)
    (m : ManagerState) (outcome : String → String → Except JsError String) (cid : String)
    (last : ReviewState)
    (h1 : (["opened", "synchronize", "reopened"].contains ev.action) = true)
    (h2 : assocGet state (prKey ev.owner ev.repo ev.prNumber) = some last)
    (hw : ¬(now - last.timestamp < cooldownMs))
    (h3 : fs ≠ []) :
    processPullRequestEvent state now ev (.ok fs) repoConfig m outcome (fun _ => .ok cid) =
      (.ok ⟨true, none, some cid⟩,
        assocSet state (prKey ev.owner ev.repo ev.prNumber) ⟨now, cid⟩,
        ⟨1, 0, 1,
          [reviewPullRequest ⟨some ev.title, some (jsOrStr ev.body ""), fs, some ev.prNumber⟩
            repoConfig m outcome]⟩) := by
  cases fs with
  | nil => exact absurd rfl h3
  | cons f rest =>
    simp only [processPullRequestEvent, h1, h2]
    simp [hw]

/-- Helper: a valid manual `/ai-review` trigger posts a review without
reading or writing the dedup map. -/
theorem processIssueCommentEvent_success (state : StateMap) (ev : IssueCommentEventData)
    (title : String) (mBody : Option String) (fs : List PRFile) (repoConfig : ReviewConfig)
    (m : ManagerState) (outcome : String → String → Except JsError String) (cid : String)
    (h1 : ev.isPullRequest = true) (h2 : ev.action = "created")
    (h3 : containsSub ev.commentBody "/ai-review" = true) :
    processIssueCommentEvent state ev (.ok (title, mBody)) (.ok fs) repoConfig m outcome
        (fun _ => .ok cid) =
      (.ok ⟨true, none, some cid⟩, state,
        ⟨1, 1, 1,
          [reviewPullRequest ⟨some title, some (jsOrStr mBody ""), fs, some ev.prNumber⟩
            repoConfig m outcome]⟩) := by
  simp only [processIssueCommentEvent, h1, h2, h3]
  simp

/-- C3, counterexample: two manual `/ai-review` comment triggers for
the same `owner/repo/prNumber`, requested back to back (zero seconds,
well inside the 5-minute window), both post a comment — two in total —
and the dedup map is never consulted or updated (it stays empty), so
neither the one-review-per-window property nor the record-after-review
property holds for this reviewable event. -/
theorem c3_counterexample_manual_triggers_bypass_cooldown :
    (processIssueCommentEvent [] ⟨true, "created", "please /ai-review", "o", "r", 7⟩
        (.ok ("T", none)) (.ok [⟨"src/a.ts", false, some "d"⟩]) defaultConfig
        ⟨["bedrock"], some "bedrock"⟩ (fun _ _ => Except.ok "LGTM")
        (fun _ => Except.ok "c1")).2.2.commentsPosted.length +
      (processIssueCommentEvent
        (processIssueCommentEvent [] ⟨true, "created", "please /ai-review", "o", "r", 7⟩
          (.ok ("T", none)) (.ok [⟨"src/a.ts", false, some "d"⟩]) defaultConfig
          ⟨["bedrock"], some "bedrock"⟩ (fun _ _ => Except.ok "LGTM")
          (fun _ => Except.ok "c1")).2.1
        ⟨true, "created", "please /ai-review", "o", "r", 7⟩
        (.ok ("T", none)) (.ok [⟨"src/a.ts", false, some "d"⟩]) defaultConfig
        ⟨["bedrock"], some "bedrock"⟩ (fun _ _ => Except.ok "LGTM")
        (fun _ => Except.ok "c2")).2.2.commentsPosted.length = 2 ∧
    (processIssueCommentEvent [] ⟨true, "created", "please /ai-review", "o", "r", 7⟩
        (.ok ("T", none)) (.ok [⟨"src/a.ts", false, some "d"⟩]) defaultConfig
        ⟨["bedrock"], some "bedrock"⟩ (fun _ _ => Except.ok "LGTM")
        (fun _ => Except.ok "c1")).2.1 = ([] : StateMap) := by
  constructor
  · rfl
  · rfl

/-- C3, amended: the cool-down invariant holds for the pull-request
path only — a PR event is skipped iff its dedup entry is younger than
five minutes, a successful PR review records the entry, two PR events
for the same key less than the window apart post exactly one comment
and more than the window apart post two; the manual `issue_comment`
trigger bypasses the mechanism entirely: it posts on every valid
`/ai-review` comment and leaves the map untouched. -/
theorem c3_amended_cooldown_only_for_pull_requests :
    (∀ state now ev files repoConfig m outcome createComment last,
        (["opened", "synchronize", "reopened"].contains ev.action) = true →
        assocGet state (prKey ev.owner ev.repo ev.prNumber) = some last →
        now - last.timestamp < cooldownMs →
        processPullRequestEvent state now ev files repoConfig m outcome createComment =
          (.ok ⟨false, some "PR was recently processed", none⟩, state, noEffects)) ∧
    (∀ state now ev fs repoConfig m outcome cid,
        (["opened", "synchronize", "reopened"].contains ev.action) = true →
        assocGet state (prKey ev.owner ev.repo ev.prNumber) = none →
        fs ≠ [] →
        (processPullRequestEvent state now ev (.ok fs) repoConfig m outcome
            (fun _ => .ok cid)).2.1 =
          assocSet state (prKey ev.owner ev.repo ev.prNumber) ⟨now, cid⟩) ∧
    (∀ ev now1 now2 fs1 files2 repoConfig m outcome cid1 createComment2,
        (["opened", "synchronize", "reopened"].contains ev.action) = true →
        fs1 ≠ [] →
        now2 - now1 < cooldownMs →
        (processPullRequestEvent [] now1 ev (.ok fs1) repoConfig m outcome
            (fun _ => .ok cid1)).2.2.commentsPosted.length = 1 ∧
        processPullRequestEvent
            (processPullRequestEvent [] now1 ev (.ok fs1) repoConfig m outcome
              (fun _ => .ok cid1)).2.1
            now2 ev files2 repoConfig m outcome createComment2 =
          (.ok ⟨false, some "PR was recently processed", none⟩,
            (processPullRequestEvent [] now1 ev (.ok fs1) repoConfig m outcome
              (fun _ => .ok cid1)).2.1,
            noEffects)) ∧
    (∀ ev now1 now2 fs1 fs2 repoConfig m outcome cid1 cid2,
        (["opened", "synchronize", "reopened"].contains ev.action) = true →
        fs1 ≠ [] → fs2 ≠ [] →
        ¬(now2 - now1 < cooldownMs) →
        (processPullRequestEvent [] now1 ev (.ok fs1) repoConfig m outcome
            (fun _ => .ok cid1)).2.2.commentsPosted.length = 1 ∧
        (processPullRequestEvent
            (processPullRequestEvent [] now1 ev (.ok fs1) repoConfig m outcome
              (fun _ => .ok cid1)).2.1
            now2 ev (.ok fs2) repoConfig m outcome
            (fun _ => .ok cid2)).2.2.commentsPosted.length = 1) ∧
    (∀ state ev title mBody fs repoConfig m outcome cid,
        ev.isPullRequest = true → ev.action = "created" →
        containsSub ev.commentBody "/ai-review" = true →
        processIssueCommentEvent state ev (.ok (title, mBody)) (.ok fs) repoConfig m outcome
            (fun _ => .ok cid) =
          (.ok ⟨true, none, some cid⟩, state,
            ⟨1, 1, 1,
              [reviewPullRequest ⟨some title, some (jsOrStr mBody ""), fs, some ev.prNumber⟩
                repoConfig m outcome]⟩)) := by
  refine ⟨?_, ?_, ?_, ?_, ?_⟩
  · intro state now ev files repoConfig m outcome createComment last h1 h2 h3
    exact processPullRequestEvent_skip state now ev files repoConfig m outcome createComment
      last h1 h2 h3
  · intro state now ev fs repoConfig m outcome cid h1 h2 h3
    rw [processPullRequestEvent_success state now ev fs repoConfig m outcome cid h1 h2 h3]
  · intro ev now1 now2 fs1 files2 repoConfig m outcome cid1 createComment2 h1 h2 h3
    have hfirst := processPullRequestEvent_success [] now1 ev fs1 repoConfig m outcome cid1
      h1 rfl h2
    constructor
    · rw [hfirst]
      rfl
    · rw [hfirst]
      exact processPullRequestEvent_skip _ now2 ev files2 repoConfig m outcome createComment2
        ⟨now1, cid1⟩ h1 (assocGet_assocSet_self [] _ _) h3
  · intro ev now1 now2 fs1 fs2 repoConfig m outcome cid1 cid2 h1 h2 h3 h4
    have hfirst := processPullRequestEvent_success [] now1 ev fs1 repoConfig m outcome cid1
      h1 rfl h2
    constructor
    · rw [hfirst]
      rfl
    · rw [hfirst]
      rw [processPullRequestEvent_success_expired _ now2 ev fs2 repoConfig m outcome cid2
        ⟨now1, cid1⟩ h1 (assocGet_assocSet_self [] _ _) h4 h3]
      rfl
  · intro state ev title mBody fs repoConfig m outcome cid h1 h2 h3
    exact processIssueCommentEvent_success state ev title mBody fs repoConfig m outcome cid
      h1 h2 h3

/-- C3, witness: the amended theorem applied at concrete inputs — a
second PR event 1 ms after the first is skipped with no second comment,
and a second PR event a full window later posts again. -/
theorem c3_amended_cooldown_only_for_pull_requests_witness :
    processPullRequestEvent
        (processPullRequestEvent [] 0 ⟨"opened", "o", "r", 1, "T", none⟩
          (.ok [⟨"src/a.ts", false, some "d"⟩]) defaultConfig ⟨["bedrock"], some "bedrock"⟩
          (fun _ _ => Except.ok "LGTM") (fun _ => Except.ok "c1")).2.1
        1 ⟨"opened", "o", "r", 1, "T", none⟩ (.ok [⟨"src/a.ts", false, some "d"⟩])
        defaultConfig ⟨["bedrock"], some "bedrock"⟩ (fun _ _ => Except.ok "LGTM")
        (fun _ => Except.ok "c2") =
      (.ok ⟨false, some "PR was recently processed", none⟩,
        (processPullRequestEvent [] 0 ⟨"opened", "o", "r", 1, "T", none⟩
          (.ok [⟨"src/a.ts", false, some "d"⟩]) defaultConfig ⟨["bedrock"], some "bedrock"⟩
          (fun _ _ => Except.ok "LGTM") (fun _ => Except.ok "c1")).2.1,
        noEffects) ∧
    (processPullRequestEvent
        (processPullRequestEvent [] 0 ⟨"opened", "o", "r", 1, "T", none⟩
          (.ok [⟨"src/a.ts", false, some "d"⟩]) defaultConfig ⟨["bedrock"], some "bedrock"⟩
          (fun _ _ => Except.ok "LGTM") (fun _ => Except.ok "c1")).2.1
        cooldownMs ⟨"opened", "o", "r", 1, "T", none⟩ (.ok [⟨"src/a.ts", false, some "d"⟩])
        defaultConfig ⟨["bedrock"], some "bedrock"⟩ (fun _ _ => Except.ok "LGTM")
        (fun _ => Except.ok "c2")).2.2.commentsPosted.length = 1 :=
  ⟨(c3_amended_cooldown_only_for_pull_requests.2.2.1 ⟨"opened", "o", "r", 1, "T", none⟩
      0 1 [⟨"src/a.ts", false, some "d"⟩] (.ok [⟨"src/a.ts", false, some "d"⟩]) defaultConfig
      ⟨["bedrock"], some "bedrock"⟩ (fun _ _ => Except.ok "LGTM") "c1"
      (fun _ => Except.ok "c2") rfl (by simp) (by decide)).2,
   (c3_amended_cooldown_only_for_pull_requests.2.2.2.1 ⟨"opened", "o", "r", 1, "T", none⟩
      0 cooldownMs [⟨"src/a.ts", false, some "d"⟩] [⟨"src/a.ts", false, some "d"⟩]
      defaultConfig ⟨["bedrock"], some "bedrock"⟩ (fun _ _ => Except.ok "LGTM") "c1" "c2"
      rfl (by simp) (by simp) (by simp [cooldownMs])).2⟩

/-- C4, counterexample: a concrete exception escaping review execution
(posting the comment fails with message `boom`) is answered with HTTP
200 and the JSON body `{processed: false, error: "boom"}` — the
response body is not a markdown comment body and does not state the
generic failure message, contradicting the claim about what the
top-level catch returns. -/
theorem c4_counterexample_catch_returns_json_not_markdown :
    handleWebHook true (.pullRequest ⟨"opened", "o", "r", 1, "T", none⟩) [] 0
        (.ok ("T", none)) (.ok [⟨"src/a.ts", false, some "d"⟩]) defaultConfig
        ⟨["bedrock"], some "bedrock"⟩ (fun _ _ => Except.ok "LGTM")
        (fun _ => Except.error ⟨"Error", "boom"⟩) =
      (⟨200, some false, none, none, some "boom"⟩, [], ⟨1, 0, 1, []⟩) ∧
    errorReviewTemplate ⟨"Error", "boom"⟩ ≠ "boom" := by
  constructor
  · rfl
  · decide

/-- C4, amended: the endpoint never answers a 5xx — after a valid
signature every answer is HTTP 200, and an invalid signature gets 401;
an exception escaping review execution is caught at the top level and
answered as 200 with the JSON body `{processed: false, error:
error.message}` (not a markdown body); a model-invocation error in
particular never escapes: the AI service converts it into the markdown
failure template, which is posted as the review comment, and the
endpoint answers `{processed: true, commentId}`. -/
theorem c4_amended_top_level_catch_and_model_errors :
    (∀ event state now prDetails files repoConfig m outcome createComment,
        (handleWebHook true event state now prDetails files repoConfig m outcome
            createComment).1.status = 200) ∧
    (∀ sigValid event state now prDetails files repoConfig m outcome createComment,
        (handleWebHook sigValid event state now prDetails files repoConfig m outcome
            createComment).1.status = 200 ∨
        (handleWebHook sigValid event state now prDetails files repoConfig m outcome
            createComment).1.status = 401) ∧
    (∀ ev state now prDetails files repoConfig m outcome createComment e,
        (processPullRequestEvent state now ev files repoConfig m outcome createComment).1 =
          .error e →
        handleWebHook true (.pullRequest ev) state now prDetails files repoConfig m outcome
            createComment =
          (⟨200, some false, none, none, some e.message⟩,
            (processPullRequestEvent state now ev files repoConfig m outcome createComment).2.1,
            (processPullRequestEvent state now ev files repoConfig m outcome
                createComment).2.2)) ∧
    (∀ state now ev fs prDetails repoConfig m outcome cid e,
        (["opened", "synchronize", "reopened"].contains ev.action) = true →
        assocGet state (prKey ev.owner ev.repo ev.prNumber) = none →
        fs ≠ [] →
        aiServiceInvokeModel m repoConfig
            (generateCustomizedPrompt ⟨some ev.title, some (jsOrStr ev.body ""), fs,
              some ev.prNumber⟩ repoConfig) outcome = .error e →
        handleWebHook true (.pullRequest ev) state now prDetails (.ok fs) repoConfig m outcome
            (fun _ => .ok cid) =
          (⟨200, some true, none, some cid, none⟩,
            assocSet state (prKey ev.owner ev.repo ev.prNumber) ⟨now, cid⟩,
            ⟨1, 0, 1, [errorReviewTemplate e]⟩)) := by
  refine ⟨?_, ?_, ?_, ?_⟩
  · intro event state now prDetails files repoConfig m outcome createComment
    simp only [handleWebHook]
    split
    · next h => exact absurd (by trivial) h
    · split <;> rfl
  · intro sigValid event state now prDetails files repoConfig m outcome createComment
    cases sigValid with
    | false => right; rfl
    | true =>
      left
      simp only [handleWebHook]
      split
      · next h => exact absurd (by trivial) h
      · split <;> rfl
  · intro ev state now prDetails files repoConfig m outcome createComment e h
    simp only [handleWebHook]
    rcases hp : processPullRequestEvent state now ev files repoConfig m outcome createComment
      with ⟨res, st2, eff⟩
    rw [hp] at h
    simp only at h
    subst h
    simp

  · intro state now ev fs prDetails repoConfig m outcome cid e h1 h2 h3 h4
    have hrev := reviewPullRequest_error
      ⟨some ev.title, some (jsOrStr ev.body ""), fs, some ev.prNumber⟩ repoConfig m outcome e h4
    have hp := processPullRequestEvent_success state now ev fs repoConfig m outcome cid h1 h2 h3
    rw [hrev] at hp
    simp only [handleWebHook]
    rw [hp]
    simp

/-- C4, witness: the amended theorem's last part applied at a concrete
event — a failing model invocation ends as a posted markdown failure
comment and a 200 `{processed: true}` answer. -/
theorem c4_amended_top_level_catch_and_model_errors_witness :
    handleWebHook true (.pullRequest ⟨"opened", "o", "r", 1, "T", none⟩) [] 0
        (.ok ("T", none)) (.ok [⟨"src/a.ts", false, some "d"⟩]) defaultConfig ⟨[], none⟩
        (fun _ _ => Except.ok "unused") (fun _ => Except.ok "c1") =
      (⟨200, some true, none, some "c1", none⟩,
        assocSet [] (prKey "o" "r" 1) ⟨0, "c1"⟩,
        ⟨1, 0, 1, [errorReviewTemplate ⟨"Error", "No AI model provider available"⟩]⟩) :=
  c4_amended_top_level_catch_and_model_errors.2.2.2 [] 0 ⟨"opened", "o", "r", 1, "T", none⟩
    [⟨"src/a.ts", false, some "d"⟩] (.ok ("T", none)) defaultConfig ⟨[], none⟩
    (fun _ _ => Except.ok "unused") "c1" ⟨"Error", "No AI model provider available"⟩
    rfl rfl (by simp) rfl

/-! ### Deep-merge lemmas (C5) -/

/-- Helper: reading back the key just assigned. -/
theorem getKey_setKey_self : ∀ (tf : List (String × JValue)) (k : String) (v : JValue),
    getKey (setKey tf k v) k = some v := by
  intro tf k v
  induction tf with
  | nil => simp [setKey, getKey]
  | cons hd tl ih =>
    rcases hd with ⟨k', v'⟩
    by_cases hk : k' = k
    · simp [setKey, getKey, hk]
    · simp [setKey, getKey, hk, ih]

/-- Helper: assignment leaves other keys alone. -/
theorem getKey_setKey_ne : ∀ (tf : List (String × JValue)) (k k' : String) (v : JValue),
    k' ≠ k → getKey (setKey tf k v) k' = getKey tf k' := by
  intro tf k k' v hk
  induction tf with
  | nil => simp [setKey, getKey, Ne.symm hk]
  | cons hd tl ih =>
    rcases hd with ⟨k1, v1⟩
    by_cases h1 : k1 = k
    · subst h1
      simp [setKey, getKey, Ne.symm hk]
    · simp [setKey, getKey, h1, ih]

/-- Helper: assigning the value already stored is the identity. -/
theorem setKey_of_getKey : ∀ (tf : List (String × JValue)) (k : String) (v : JValue),
    getKey tf k = some v → setKey tf k v = tf := by
  intro tf k v h
  induction tf with
  | nil => simp [getKey] at h
  | cons hd tl ih =>
    rcases hd with ⟨k1, v1⟩
    by_cases h1 : k1 = k
    · subst h1
      simp [getKey] at h
      simp [setKey, h]
    · simp [getKey, h1] at h
      simp [setKey, h1, ih h]

/-- Helper: with distinct keys, membership determines the lookup. -/
theorem getKey_of_mem_nodup : ∀ (fs : List (String × JValue)) (k : String) (v : JValue),
    (fs.map Prod.fst).Nodup → (k, v) ∈ fs → getKey fs k = some v := by
  intro fs k v hn hm
  induction fs with
  | nil => cases hm
  | cons hd tl ih =>
    rcases hd with ⟨k1, v1⟩
    rcases List.mem_cons.mp hm with h1 | h1
    · injection h1 with hk hv
      subst hk
      simp [getKey, hv.symm]
    · have hk1 : k1 ≠ k := by
        intro he
        subst he
        exact (List.nodup_cons.mp hn).1 (List.mem_map.mpr ⟨(k1, v), h1, rfl⟩)
      simp [getKey, hk1]
      exact ih (List.nodup_cons.mp hn).2 h1

/-- Helper: the equations of `mergeFields` in terms of `mergeStep`. -/
theorem mergeFields_nil (tf : List (String × JValue)) : mergeFields tf [] = tf := by
  simp [mergeFields]

theorem mergeFields_cons (tf : List (String × JValue)) (k : String) (v : JValue)
    (rest : List (String × JValue)) :
    mergeFields tf ((k, v) :: rest) = mergeFields (mergeStep tf k v) rest := by
  rw [mergeFields]

/-- Helper: `mergeStep` assigns exactly `mergeValue` of the current
field. -/
theorem mergeStep_eq_setKey (tf : List (String × JValue)) (k : String) (v : JValue) :
    mergeStep tf k v = setKey tf k (mergeValue (getKey tf k) v) := by
  cases v with
  | vnull => simp [mergeStep, mergeValue]
  | vbool b => simp [mergeStep, mergeValue]
  | vnum q => simp [mergeStep, mergeValue]
  | vstr str => simp [mergeStep, mergeValue]
  | arr elems => simp [mergeStep, mergeValue]
  | obj vf =>
    rcases hg : getKey tf k with _ | w
    · simp [mergeStep, mergeValue, hg]
    · cases w <;> simp [mergeStep, mergeValue, hg]

/-- Helper: `mergeValue` of a non-object source is that source. -/
theorem mergeValue_of_not_obj (target : Option JValue) (v : JValue) (h : v.isObj = false) :
    mergeValue target v = v := by
  cases v <;> simp_all [mergeValue, JValue.isObj]

/-- Helper: `mergeStep` touches only its own key. -/
theorem getKey_mergeStep_ne (tf : List (String × JValue)) (k k' : String) (v : JValue)
    (h : k' ≠ k) : getKey (mergeStep tf k v) k' = getKey tf k' := by
  rw [mergeStep_eq_setKey]
  exact getKey_setKey_ne tf k k' _ h

/-- Helper: keys not named by the source keep their default value. -/
theorem getKey_mergeFields_not_mem : ∀ (sf tf : List (String × JValue)) (k : String),
    k ∉ sf.map Prod.fst → getKey (mergeFields tf sf) k = getKey tf k := by
  intro sf
  induction sf with
  | nil => intro tf k _; rw [mergeFields_nil]
  | cons hd rest ih =>
    rcases hd with ⟨k1, v⟩
    intro tf k hk
    rw [mergeFields_cons]
    have hk1 : k ≠ k1 := by
      intro he
      exact hk (by simp [he])
    have hrest : k ∉ rest.map Prod.fst := fun hm => hk (by simp [hm])
    rw [ih (mergeStep tf k1 v) k hrest]
    exact getKey_mergeStep_ne tf k1 k v hk1

/-- Helper: a key named by the source ends at `mergeValue` of its
default and source values. -/
theorem getKey_mergeFields_mem : ∀ (sf tf : List (String × JValue)) (k : String) (v : JValue),
    (sf.map Prod.fst).Nodup → (k, v) ∈ sf →
    getKey (mergeFields tf sf) k = some (mergeValue (getKey tf k) v) := by
  intro sf
  induction sf with
  | nil => intro tf k v _ hm; cases hm
  | cons hd rest ih =>
    rcases hd with ⟨k1, v1⟩
    intro tf k v hn hm
    rw [mergeFields_cons]
    rcases List.mem_cons.mp hm with h1 | h1
    · injection h1 with hk hv
      subst hk
      subst hv
      have hrest : k ∉ rest.map Prod.fst := (List.nodup_cons.mp hn).1
      rw [getKey_mergeFields_not_mem rest _ k hrest, mergeStep_eq_setKey]
      rw [getKey_setKey_self]
    · have hk1 : k ≠ k1 := by
        intro he
        subst he
        exact (List.nodup_cons.mp hn).1 (List.mem_map.mpr ⟨(k, v), h1, rfl⟩)
      rw [ih (mergeStep tf k1 v1) k v (List.nodup_cons.mp hn).2 h1]
      rw [getKey_mergeStep_ne tf k1 k v1 hk1]

/-- Helper: inverting `SrcWF` on an object. -/
theorem srcWF_obj_inv {fs : List (String × JValue)} (h : SrcWF (.obj fs)) :
    (fs.map Prod.fst).Nodup ∧ ∀ kv ∈ fs, SrcWF kv.2 := by
  cases h with
  | prim _ hv => simp [JValue.isObj] at hv
  | obj _ hn hw => exact ⟨hn, hw⟩

/-- Helper: the source value is smaller than the source list holding
it. -/
theorem sizeOf_value_lt (k : String) (v : JValue) (rest : List (String × JValue)) :
    sizeOf v < sizeOf ((k, v) :: rest) := by
  simp only [List.cons.sizeOf_spec, Prod.mk.sizeOf_spec]
  omega

/-- Helper: an object's field list is smaller than the object. -/
theorem sizeOf_fields_lt (vf : List (String × JValue)) :
    sizeOf vf < sizeOf (JValue.obj vf) := by
  simp only [JValue.obj.sizeOf_spec]
  omega

/-- Helper: the tail is smaller than the source list. -/
theorem sizeOf_rest_lt (k : String) (v : JValue) (rest : List (String × JValue)) :
    sizeOf rest < sizeOf ((k, v) :: rest) := by
  simp only [List.cons.sizeOf_spec]
  omega

/-- Helper (absorption): merging a well-formed source whose every entry
is already stored verbatim in the target changes nothing; in
particular, merging a well-formed object into itself is the identity. -/
theorem mergeFields_absorb : ∀ (n : Nat) (sf tf : List (String × JValue)),
    sizeOf sf ≤ n → (∀ kv ∈ sf, SrcWF kv.2) →
    (∀ k v, (k, v) ∈ sf → getKey tf k = some v) →
    mergeFields tf sf = tf := by
  intro n
  induction n with
  | zero =>
    intro sf tf hs _ _
    exfalso
    cases sf <;> simp only [List.nil.sizeOf_spec, List.cons.sizeOf_spec] at hs <;> omega
  | succ n ih =>
    intro sf tf hs hwf habs
    cases sf with
    | nil => exact mergeFields_nil tf
    | cons hd rest =>
      rcases hd with ⟨k, v⟩
      rw [mergeFields_cons]
      have hget : getKey tf k = some v := habs k v (List.mem_cons_self _ _)
      have hstep : mergeStep tf k v = tf := by
        rw [mergeStep_eq_setKey, hget]
        cases hv : v.isObj with
        | false =>
          rw [mergeValue_of_not_obj _ _ hv]
          exact setKey_of_getKey tf k v hget
        | true =>
          cases v with
          | obj vf =>
            have hwfv : SrcWF (.obj vf) := hwf (k, .obj vf) (List.mem_cons_self _ _)
            have hinv := srcWF_obj_inv hwfv
            have hsz : sizeOf vf ≤ n := by
              have h1 := sizeOf_fields_lt vf
              have h2 := sizeOf_value_lt k (JValue.obj vf) rest
              omega
            have hself : mergeFields vf vf = vf :=
              ih vf vf hsz hinv.2 (fun k' v' hm => getKey_of_mem_nodup vf k' v' hinv.1 hm)
            simp only [mergeValue, hself]
            exact setKey_of_getKey tf k _ hget
          | vnull => simp [JValue.isObj] at hv
          | vbool b => simp [JValue.isObj] at hv
          | vnum q => simp [JValue.isObj] at hv
          | vstr str => simp [JValue.isObj] at hv
          | arr elems => simp [JValue.isObj] at hv
      rw [hstep]
      have hsz : sizeOf rest ≤ n := by
        have := sizeOf_rest_lt k v rest
        omega
      exact ih rest tf hsz (fun kv hm => hwf kv (List.mem_cons_of_mem _ hm))
        (fun k' v' hm => habs k' v' (List.mem_cons_of_mem _ hm))

/-- Helper: merging a well-formed object into itself is the identity. -/
theorem mergeFields_self (fs : List (String × JValue)) (h : SrcWF (.obj fs)) :
    mergeFields fs fs = fs := by
  have hinv := srcWF_obj_inv h
  exact mergeFields_absorb (sizeOf fs) fs fs le_rfl hinv.2
    (fun k v hm => getKey_of_mem_nodup fs k v hinv.1 hm)

/-- Helper (idempotence): re-merging the same well-formed source into
an already-merged target changes nothing. -/
theorem mergeFields_idem : ∀ (n : Nat) (sf tf : List (String × JValue)),
    sizeOf sf ≤ n → (sf.map Prod.fst).Nodup → (∀ kv ∈ sf, SrcWF kv.2) →
    mergeFields (mergeFields tf sf) sf = mergeFields tf sf := by
  intro n
  induction n with
  | zero =>
    intro sf tf hs _ _
    exfalso
    cases sf <;> simp only [List.nil.sizeOf_spec, List.cons.sizeOf_spec] at hs <;> omega
  | succ n ih =>
    intro sf tf hs hn hwf
    cases sf with
    | nil => simp [mergeFields_nil]
    | cons hd rest =>
      rcases hd with ⟨k, v⟩
      have hkrest : k ∉ rest.map Prod.fst := (List.nodup_cons.mp hn).1
      have hnrest := (List.nodup_cons.mp hn).2
      have hwfrest : ∀ kv ∈ rest, SrcWF kv.2 := fun kv hm => hwf kv (List.mem_cons_of_mem _ hm)
      have hsrest : sizeOf rest ≤ n := by
        have := sizeOf_rest_lt k v rest
        omega
      have hszv : sizeOf v ≤ n := by
        have := sizeOf_value_lt k v rest
        omega
      have hcons : mergeFields tf ((k, v) :: rest) = mergeFields (mergeStep tf k v) rest :=
        mergeFields_cons tf k v rest
      rw [hcons, mergeFields_cons]
      have hgB : getKey (mergeFields (mergeStep tf k v) rest) k =
          getKey (mergeStep tf k v) k :=
        getKey_mergeFields_not_mem rest _ k hkrest
      have hgA : getKey (mergeStep tf k v) k = some (mergeValue (getKey tf k) v) := by
        rw [mergeStep_eq_setKey]
        exact getKey_setKey_self tf k _
      have hval : mergeValue (some (mergeValue (getKey tf k) v)) v =
          mergeValue (getKey tf k) v := by
        cases hv : v.isObj with
        | false => rw [mergeValue_of_not_obj _ _ hv, mergeValue_of_not_obj _ _ hv]
        | true =>
          cases v with
          | obj vf =>
            have hwfv : SrcWF (.obj vf) := hwf (k, .obj vf) (List.mem_cons_self _ _)
            have hinv := srcWF_obj_inv hwfv
            have hszvf : sizeOf vf ≤ n := by
              have := sizeOf_fields_lt vf
              omega
            rcases hg : getKey tf k with _ | w
            · simp only [mergeValue]
              rw [mergeFields_self vf hwfv]
            · cases w with
              | obj tvf =>
                simp only [mergeValue]
                rw [ih vf tvf hszvf hinv.1 hinv.2]
              | vnull => simp only [mergeValue]; rw [mergeFields_self vf hwfv]
              | vbool b => simp only [mergeValue]; rw [mergeFields_self vf hwfv]
              | vnum q => simp only [mergeValue]; rw [mergeFields_self vf hwfv]
              | vstr str => simp only [mergeValue]; rw [mergeFields_self vf hwfv]
              | arr elems => simp only [mergeValue]; rw [mergeFields_self vf hwfv]
          | vnull => simp [JValue.isObj] at hv
          | vbool b => simp [JValue.isObj] at hv
          | vnum q => simp [JValue.isObj] at hv
          | vstr str => simp [JValue.isObj] at hv
          | arr elems => simp [JValue.isObj] at hv
      have hstep : mergeStep (mergeFields (mergeStep tf k v) rest) k v =
          mergeFields (mergeStep tf k v) rest := by
        rw [mergeStep_eq_setKey, hgB, hgA, hval]
        exact setKey_of_getKey _ k _ (by rw [hgB, hgA])
      rw [hstep]
      exact ih rest (mergeStep tf k v) hsrest hnrest hwfrest

/-- C5: for every well-formed policy document, `validateAndMergeConfig`
merges into a clone of the defaults: every default field whose key the
document does not name is preserved; every field the document names is
overridden — wholesale for arrays and primitives, recursively when both
the document value and the default are plain objects; and the merge is
idempotent: merging the already-merged result with the same document
again yields the same result. -/
theorem c5_merge_preserves_overrides_idempotent :
    ∀ sf : List (String × JValue), SrcWF (.obj sf) →
      validateAndMergeConfig (.obj sf) = .obj (mergeFields defaultConfigFields sf) ∧
      (∀ k, k ∉ sf.map Prod.fst →
          getKey (mergeFields defaultConfigFields sf) k = getKey defaultConfigFields k) ∧
      (∀ k v, (k, v) ∈ sf → v.isObj = false →
          getKey (mergeFields defaultConfigFields sf) k = some v) ∧
      (∀ k vf tvf, (k, .obj vf) ∈ sf → getKey defaultConfigFields k = some (.obj tvf) →
          getKey (mergeFields defaultConfigFields sf) k =
            some (.obj (mergeFields tvf vf))) ∧
      mergeObjects (validateAndMergeConfig (.obj sf)) (.obj sf) =
        validateAndMergeConfig (.obj sf) := by
  intro sf hwf
  have hinv := srcWF_obj_inv hwf
  refine ⟨rfl, ?_, ?_, ?_, ?_⟩
  · intro k hk
    exact getKey_mergeFields_not_mem sf defaultConfigFields k hk
  · intro k v hm hv
    rw [getKey_mergeFields_mem sf defaultConfigFields k v hinv.1 hm,
      mergeValue_of_not_obj _ _ hv]
  · intro k vf tvf hm hd
    rw [getKey_mergeFields_mem sf defaultConfigFields k (.obj vf) hinv.1 hm, hd]
    simp [mergeValue]
  · show mergeObjects (.obj (mergeFields defaultConfigFields sf)) (.obj sf) =
      .obj (mergeFields defaultConfigFields sf)
    simp only [mergeObjects]
    rw [mergeFields_idem (sizeOf sf) sf defaultConfigFields le_rfl hinv.1 hinv.2]

/-- C5, witness: the theorem applied to the concrete partial document
`{custom_rules: ["x"], general: {min_size: 5}}` — the untouched `focus`
default is preserved, the array replaces the default wholesale, the
nested object merges recursively, and the merge is idempotent. -/
theorem c5_merge_preserves_overrides_idempotent_witness :
    getKey (mergeFields defaultConfigFields
        [("custom_rules", .arr [.vstr "x"]),
          ("general", .obj [("min_size", .vnum 5)])]) "focus" =
      getKey defaultConfigFields "focus" ∧
    getKey (mergeFields defaultConfigFields
        [("custom_rules", .arr [.vstr "x"]),
          ("general", .obj [("min_size", .vnum 5)])]) "custom_rules" =
      some (.arr [.vstr "x"]) ∧
    mergeObjects
        (validateAndMergeConfig (.obj
          [("custom_rules", .arr [.vstr "x"]),
            ("general", .obj [("min_size", .vnum 5)])]))
        (.obj [("custom_rules", .arr [.vstr "x"]),
          ("general", .obj [("min_size", .vnum 5)])]) =
      validateAndMergeConfig (.obj
        [("custom_rules", .arr [.vstr "x"]),
          ("general", .obj [("min_size", .vnum 5)])]) := by
  have hwf : SrcWF (.obj
      [("custom_rules", JValue.arr [.vstr "x"]),
        ("general", JValue.obj [("min_size", JValue.vnum 5)])]) := by
    refine SrcWF.obj _ (by simp) ?_
    intro kv hkv
    rcases List.mem_cons.mp hkv with h | h
    · rw [h]
      exact SrcWF.prim _ rfl
    · rcases List.mem_cons.mp h with h2 | h2
      · rw [h2]
        refine SrcWF.obj _ (by simp) ?_
        intro kv2 hkv2
        rcases List.mem_cons.mp hkv2 with h3 | h3
        · rw [h3]
          exact SrcWF.prim _ rfl
        · cases h3
      · cases h2
  have h := c5_merge_preserves_overrides_idempotent
    [("custom_rules", .arr [.vstr "x"]), ("general", .obj [("min_size", .vnum 5)])] hwf
  exact ⟨h.2.1 "focus" (by simp), h.2.2.1 "custom_rules" (.arr [.vstr "x"])
    (List.mem_cons_self _ _) rfl, h.2.2.2.2⟩

end AiPrReview
